import Mathlib

/-!
# slackpass: the instance lifecycle, embedded in Lean

A shallow embedding of the lifecycle code of slackpass (`internal/kvm`, `internal/vm`,
`internal/ssh`, `cmd`) and theorems about it.

Modelling conventions.

* The instances root is a directory listing: a list of named entries in the order
  `os.ReadDir` reports them (sorted by file name).  An entry is a plain file or an instance
  directory holding at most a `metadata.json` and a `disk.qcow2`.
* Instance names are single path components, so `filepath.Join(InstancesDir, name, ...)`
  addresses the entry called `name` of the root.
* The file system has no transient faults: a write succeeds exactly when the directory it
  goes to exists, a removal always succeeds.
* The content of `metadata.json` is kept as a parsed JSON document (a list of members);
  the standard library renders and parses the text.
* A `time.Time` is the instant it denotes (what `Time.Equal` compares); the clock of
  `time.Now()` reads a year of four digits.
* A Go `string` is a sequence of Unicode characters and a Go `int` an integer; the code
  does no arithmetic on the integers it stores.
* Everything the program does to the outside (processes, signals, connections, sleeps,
  standard output) is appended to a trace; what the outside answers comes from `Env`.
-/

namespace Slackpass

/-! ## Errors -/

/-- Go `error` values.  `wrap ctx e` is `fmt.Errorf(ctx + ": %w", e)`, `msg s` is a
`fmt.Errorf` without a cause, the others come from the standard library. -/
inductive Err where
  | notExist (path : String)
  | notDir (path : String)
  | syntaxError
  | typeError (key : String)
  | marshalTime
  | exitStatus (bin : String)
  | execFailed (bin : String)
  | msg (s : String)
  | wrap (ctx : String) (cause : Err)
deriving DecidableEq, Repr

/-- The text of `err.Error()`. -/
def Err.render : Err → String
  | .notExist path => "open " ++ path ++ ": no such file or directory"
  | .notDir path => "open " ++ path ++ ": not a directory"
  | .syntaxError => "invalid character looking for beginning of value"
  | .typeError key => "json: cannot unmarshal value into Go struct field InstanceMetadata." ++ key
  | .marshalTime => "json: error calling MarshalJSON for type time.Time: year outside of range [0,9999]"
  | .exitStatus bin => bin ++ ": exit status 1"
  | .execFailed bin => "exec: " ++ bin ++ ": executable file not found in $PATH"
  | .msg s => s
  | .wrap ctx cause => ctx ++ ": " ++ cause.render

/-! ## Data model (`internal/kvm/types.go`, `internal/config/config.go`) -/

/-- An instant: nanoseconds since 0001-01-01T00:00:00Z, the zero value of `time.Time`. -/
structure Time where
  nanos : Int
deriving DecidableEq, Repr

/-- The zero value of `time.Time`. -/
def Time.zero : Time := ⟨0⟩

/-- Whether the year of the instant lies in 0..9999, the range `Time.MarshalJSON` accepts and
the range an RFC 3339 timestamp can denote. -/
def Time.inRange (t : Time) : Bool :=
  decide (-31622400 * 1000000000 ≤ t.nanos) && decide (t.nanos < 315537897600 * 1000000000)

/-- The constant `StateRunning`. -/
def StateRunning : String := "Running"

/-- The constant `StateStopped`. -/
def StateStopped : String := "Stopped"

/-- The struct `Instance`: the summary `List` returns. -/
structure Instance where
  Name : String
  State : String
  IPv4 : String
  Image : String
  CPUs : Int
  Memory : String
  Disk : String
deriving DecidableEq, Repr

/-- The struct `InstanceMetadata`: the record stored for each instance. -/
structure InstanceMetadata where
  Name : String
  Image : String
  CPUs : Int
  Memory : String
  Disk : String
  DiskPath : String
  CloudInit : String
  State : String
  PID : Int
  IPv4 : String
  MAC : String
  CreatedAt : Time
  UpdatedAt : Time
deriving DecidableEq, Repr

/-- The Go zero value of `InstanceMetadata` (`var metadata InstanceMetadata`). -/
def InstanceMetadata.zero : InstanceMetadata :=
  { Name := "", Image := "", CPUs := 0, Memory := "", Disk := "", DiskPath := "",
    CloudInit := "", State := "", PID := 0, IPv4 := "", MAC := "",
    CreatedAt := Time.zero, UpdatedAt := Time.zero }

/-- The fields of `config.Config` the lifecycle code reads. -/
structure Config where
  InstancesDir : String
  QEMUBinary : String
  QEMUImgBinary : String
  SSHKeyPath : String
  SSHUser : String
  SSHTimeout : Int
deriving DecidableEq, Repr

/-- The struct `VMConfig` of `internal/kvm/client.go`. -/
structure VMConfig where
  Name : String
  ImagePath : String
  CPUs : Int
  Memory : String
  Disk : String
  CloudInit : String
deriving DecidableEq, Repr

/-- The struct `LaunchConfig` of `internal/vm/types.go`. -/
structure LaunchConfig where
  Image : String
  Name : String
  CPUs : Int
  Memory : String
  Disk : String
  CloudInit : String
deriving DecidableEq, Repr

/-! ## JSON documents (`encoding/json` on `InstanceMetadata`) -/

/-- A JSON value as far as `InstanceMetadata` can tell values apart.  `time t` is a string
that is the RFC 3339 timestamp of `t`; it only stands under `created_at` and `updated_at`,
where every other string is a `str`.  `other` is a boolean, array, object or a number that
is not a Go `int`. -/
inductive JVal where
  | null
  | str (s : String)
  | num (n : Int)
  | time (t : Time)
  | other
deriving DecidableEq, Repr

/-- The content of a `metadata.json`: a JSON object with its members in order, or bytes that
`json.Unmarshal` cannot parse as an object. -/
inductive FileData where
  | garbage
  | object (members : List (String × JVal))
deriving DecidableEq, Repr

/-- A string member, left out under `omitempty` when the string is empty. -/
def omitEmptyStr (key s : String) : List (String × JVal) :=
  if s = "" then [] else [(key, JVal.str s)]

/-- An int member, left out under `omitempty` when the int is zero. -/
def omitEmptyInt (key : String) (n : Int) : List (String × JVal) :=
  if n = 0 then [] else [(key, JVal.num n)]

/-- The members `json.MarshalIndent` writes for a record, by the struct tags of
`InstanceMetadata`: `cloud_init`, `pid`, `ipv4` and `mac` carry `omitempty`. -/
def marshalMembers (m : InstanceMetadata) : List (String × JVal) :=
  [("name", JVal.str m.Name), ("image", JVal.str m.Image), ("cpus", JVal.num m.CPUs),
   ("memory", JVal.str m.Memory), ("disk", JVal.str m.Disk),
   ("disk_path", JVal.str m.DiskPath)]
  ++ omitEmptyStr "cloud_init" m.CloudInit
  ++ [("state", JVal.str m.State)]
  ++ omitEmptyInt "pid" m.PID
  ++ omitEmptyStr "ipv4" m.IPv4
  ++ omitEmptyStr "mac" m.MAC
  ++ [("created_at", JVal.time m.CreatedAt), ("updated_at", JVal.time m.UpdatedAt)]

/-- The call `json.MarshalIndent(metadata, "", "  ")`: it fails only when a timestamp cannot
be rendered. -/
def jsonMarshal (m : InstanceMetadata) : Except Err FileData :=
  if m.CreatedAt.inRange && m.UpdatedAt.inRange then
    .ok (FileData.object (marshalMembers m))
  else
    .error Err.marshalTime

/-- Decoding a JSON value into a Go `string` field: `null` leaves the field as it is. -/
def decodeStr (old : String) : JVal → Option String
  | .null => some old
  | .str s => some s
  | _ => none

/-- Decoding a JSON value into a Go `int` field. -/
def decodeInt (old : Int) : JVal → Option Int
  | .null => some old
  | .num n => some n
  | _ => none

/-- Decoding a JSON value into a `time.Time` field (`Time.UnmarshalJSON`). -/
def decodeTime (old : Time) : JVal → Option Time
  | .null => some old
  | .time t => if t.inRange then some t else none
  | _ => none

/-- One member of the object stored into the struct: the field is picked by its tag, an
unknown key is skipped, `none` is a value of the wrong type. -/
def setField (m : InstanceMetadata) (key : String) (v : JVal) : Option InstanceMetadata :=
  if key = "name" then (decodeStr m.Name v).map (fun x => { m with Name := x })
  else if key = "image" then (decodeStr m.Image v).map (fun x => { m with Image := x })
  else if key = "cpus" then (decodeInt m.CPUs v).map (fun x => { m with CPUs := x })
  else if key = "memory" then (decodeStr m.Memory v).map (fun x => { m with Memory := x })
  else if key = "disk" then (decodeStr m.Disk v).map (fun x => { m with Disk := x })
  else if key = "disk_path" then (decodeStr m.DiskPath v).map (fun x => { m with DiskPath := x })
  else if key = "cloud_init" then
    (decodeStr m.CloudInit v).map (fun x => { m with CloudInit := x })
  else if key = "state" then (decodeStr m.State v).map (fun x => { m with State := x })
  else if key = "pid" then (decodeInt m.PID v).map (fun x => { m with PID := x })
  else if key = "ipv4" then (decodeStr m.IPv4 v).map (fun x => { m with IPv4 := x })
  else if key = "mac" then (decodeStr m.MAC v).map (fun x => { m with MAC := x })
  else if key = "created_at" then
    (decodeTime m.CreatedAt v).map (fun x => { m with CreatedAt := x })
  else if key = "updated_at" then
    (decodeTime m.UpdatedAt v).map (fun x => { m with UpdatedAt := x })
  else some m

/-- The members of an object stored one after the other, a later member overriding an
earlier one with the same key. -/
def unmarshalMembers : List (String × JVal) → InstanceMetadata → Except Err InstanceMetadata
  | [], m => .ok m
  | (key, v) :: rest, m =>
    match setField m key v with
    | some m1 => unmarshalMembers rest m1
    | none => .error (Err.typeError key)

/-- The call `json.Unmarshal(data, &metadata)` on a zero-valued `metadata`. -/
def jsonUnmarshal : FileData → Except Err InstanceMetadata
  | .garbage => .error Err.syntaxError
  | .object members => unmarshalMembers members InstanceMetadata.zero

/-! ## The world: instance directories and the trace of outside effects -/

/-- What the program does to the outside, in order. -/
inductive Event where
  | print (text : String)
  | run (bin : String) (args : List String)
  | start (bin : String) (args : List String)
  | kill (pid : Int)
  | interrupt (pid : Int)
  | dial (addr : String) (took : Nat)
  | sleep (ns : Nat)
deriving DecidableEq, Repr

/-- An instance directory: the content of its `metadata.json`, if there is one, and whether it
has a `disk.qcow2`. -/
structure InstanceDir where
  metadata : Option FileData
  disk : Bool
deriving DecidableEq, Repr

/-- An entry of the instances root. -/
inductive Entry where
  | file
  | dir (d : InstanceDir)
deriving DecidableEq, Repr

/-- The state the program runs against: the instances root (`none` when it does not exist)
and the trace of outside effects so far. -/
structure World where
  root : Option (List (String × Entry))
  trace : List Event
deriving DecidableEq, Repr

/-- One outside effect appended to the trace. -/
def World.emit (w : World) (e : Event) : World :=
  { w with trace := w.trace ++ [e] }

/-- The outcome of one `net.DialTimeout`: whether it connected and how long it took. -/
structure DialResult where
  ok : Bool
  took : Nat

/-- What the outside answers during one operation: the clock read by `time.Now()` (a year
of four digits), the exit status of `qemu-img`, the process id `cmd.Start()` gives (`none`
when the spawn fails), whether `os.FindProcess` finds the process, whether the signal is
delivered, and the outcome of each connection attempt. -/
structure Env where
  now : Time
  now_ok : now.inRange = true
  qemuImg : Bool
  spawn : Option Int
  findProcess : Bool
  signal : Bool
  dial : Nat → DialResult

/-- The call `filepath.Join(a, b)` on clean paths. -/
def joinPath (a b : String) : String := a ++ "/" ++ b

/-- The path `filepath.Join(InstancesDir, name)`. -/
def instanceDirPath (cfg : Config) (name : String) : String :=
  joinPath cfg.InstancesDir name

/-- The path `filepath.Join(InstancesDir, name, "metadata.json")`. -/
def metadataPath (cfg : Config) (name : String) : String :=
  joinPath (instanceDirPath cfg name) "metadata.json"

/-- The entry of a directory listing with the given name. -/
def findEntry (name : String) : List (String × Entry) → Option Entry
  | [] => none
  | (n, e) :: rest => if n = name then some e else findEntry name rest

/-- The entry of the instances root with the given name. -/
def World.entry (w : World) (name : String) : Option Entry :=
  match w.root with
  | none => none
  | some entries => findEntry name entries

/-- The listing with the entry of the given name replaced. -/
def setEntry (name : String) (e : Entry) : List (String × Entry) → List (String × Entry)
  | [] => []
  | (n, x) :: rest =>
    if n = name then (n, e) :: setEntry name e rest else (n, x) :: setEntry name e rest

/-- The listing with a new entry put at its place in file-name order. -/
def insertEntry (name : String) (e : Entry) : List (String × Entry) → List (String × Entry)
  | [] => [(name, e)]
  | (n, x) :: rest =>
    if name.data < n.data then (name, e) :: (n, x) :: rest
    else (n, x) :: insertEntry name e rest

/-- The listing without the entries of the given name. -/
def removeEntry (name : String) : List (String × Entry) → List (String × Entry)
  | [] => []
  | (n, x) :: rest =>
    if n = name then removeEntry name rest else (n, x) :: removeEntry name rest

/-- The world with the entry of the given name replaced. -/
def World.put (w : World) (name : String) (e : Entry) : World :=
  { w with root := w.root.map (setEntry name e) }

/-- The call `os.Stat(filepath.Join(InstancesDir, name))`: whether it returns no error. -/
def statOk (w : World) (name : String) : Bool :=
  (w.entry name).isSome

/-- The call `os.MkdirAll(filepath.Join(InstancesDir, name), 0755)`: it creates the root
and the directory as needed and fails on a plain file. -/
def mkdirAll (cfg : Config) (name : String) (w : World) : Option Err × World :=
  match w.entry name with
  | some (Entry.dir _) => (none, w)
  | some Entry.file => (some (Err.notDir (instanceDirPath cfg name)), w)
  | none =>
    (none, { w with root := some (insertEntry name (Entry.dir ⟨none, false⟩) (w.root.getD [])) })

/-- The call `os.RemoveAll(filepath.Join(InstancesDir, name))`. -/
def removeAll (name : String) (w : World) : Option Err × World :=
  (none, { w with root := w.root.map (removeEntry name) })

/-- The call `os.ReadFile(filepath.Join(InstancesDir, name, "metadata.json"))`. -/
def readMetadataFile (cfg : Config) (name : String) (w : World) : Except Err FileData :=
  match w.entry name with
  | some (Entry.dir d) =>
    match d.metadata with
    | some data => .ok data
    | none => .error (Err.notExist (metadataPath cfg name))
  | some Entry.file => .error (Err.notDir (metadataPath cfg name))
  | none => .error (Err.notExist (metadataPath cfg name))

/-- The call `os.WriteFile(filepath.Join(InstancesDir, name, "metadata.json"), data, 0644)`. -/
def writeMetadataFile (cfg : Config) (name : String) (data : FileData) (w : World) :
    Option Err × World :=
  match w.entry name with
  | some (Entry.dir d) => (none, w.put name (Entry.dir { d with metadata := some data }))
  | some Entry.file => (some (Err.notDir (metadataPath cfg name)), w)
  | none => (some (Err.notExist (metadataPath cfg name)), w)

/-! ## `internal/kvm/client.go` -/

/-- The method `loadMetadata`. -/
def kvmClient.loadMetadata (cfg : Config) (name : String) (w : World) :
    Except Err InstanceMetadata :=
  match readMetadataFile cfg name w with
  | .error e => .error e
  | .ok data => jsonUnmarshal data

/-- The method `saveMetadata`; the path argument is given as the instance name it was
joined from. -/
def kvmClient.saveMetadata (cfg : Config) (metadata : InstanceMetadata) (name : String)
    (w : World) : Option Err × World :=
  match jsonMarshal metadata with
  | .error e => (some e, w)
  | .ok data => writeMetadataFile cfg name data w

/-- The method `createDiskImage`, run for the disk of the instance `name`: `qemu-img create`
exits with status 0 only if the directory of the target exists. -/
def kvmClient.createDiskImage (cfg : Config) (env : Env) (name : String)
    (_sourcePath targetPath size : String) (w : World) : Option Err × World :=
  let w1 := w.emit (Event.run cfg.QEMUImgBinary ["create", "-f", "qcow2", targetPath, size])
  match w1.entry name with
  | some (Entry.dir d) =>
    if env.qemuImg then (none, w1.put name (Entry.dir { d with disk := true }))
    else (some (Err.exitStatus cfg.QEMUImgBinary), w1)
  | _ => (some (Err.exitStatus cfg.QEMUImgBinary), w1)

/-- The method `createCloudInitISO`. -/
def kvmClient.createCloudInitISO (_configPath _isoPath : String) (w : World) :
    Option Err × World :=
  (none, w)

/-- The method `buildQEMUCommand`: the binary and its arguments. -/
def kvmClient.buildQEMUCommand (cfg : Config) (metadata : InstanceMetadata) :
    String × List String :=
  let args := [
    "-name", metadata.Name,
    "-machine", "type=pc,accel=kvm",
    "-cpu", "host",
    "-smp", toString metadata.CPUs,
    "-m", metadata.Memory,
    "-drive", "file=" ++ metadata.DiskPath ++ ",format=qcow2,if=virtio",
    "-netdev", "user,id=net0,hostfwd=tcp::0-:22",
    "-device", "virtio-net-pci,netdev=net0",
    "-nographic",
    "-daemonize"]
  let args := if metadata.CloudInit ≠ "" then
      args ++ ["-drive", "file=" ++ metadata.CloudInit ++ ",format=raw,if=virtio"]
    else args
  (cfg.QEMUBinary, args)

/-- The method `Create`. -/
def kvmClient.Create (cfg : Config) (env : Env) (config : VMConfig) (w : World) :
    Option Err × World :=
  let instanceDir := instanceDirPath cfg config.Name
  let diskPath := joinPath instanceDir "disk.qcow2"
  match kvmClient.createDiskImage cfg env config.Name config.ImagePath diskPath config.Disk w with
  | (some e, w1) => (some (Err.wrap "failed to create disk image" e), w1)
  | (none, w1) =>
    let cloudInitPath := if config.CloudInit ≠ "" then joinPath instanceDir "cloud-init.iso" else ""
    match (if config.CloudInit ≠ "" then
        kvmClient.createCloudInitISO config.CloudInit cloudInitPath w1 else (none, w1)) with
    | (some e, w2) => (some (Err.wrap "failed to create cloud-init ISO" e), w2)
    | (none, w2) =>
      let metadata : InstanceMetadata :=
        { InstanceMetadata.zero with
          Name := config.Name
          Image := config.ImagePath
          CPUs := config.CPUs
          Memory := config.Memory
          Disk := config.Disk
          DiskPath := diskPath
          CloudInit := cloudInitPath
          CreatedAt := env.now
          State := StateStopped }
      kvmClient.saveMetadata cfg metadata config.Name w2

/-- The method `Start`. -/
def kvmClient.Start (cfg : Config) (env : Env) (name : String) (w : World) :
    Option Err × World :=
  match kvmClient.loadMetadata cfg name w with
  | .error e => (some (Err.wrap "failed to load metadata" e), w)
  | .ok metadata =>
    if metadata.State = StateRunning then
      (some (Err.msg ("instance \x27" ++ name ++ "\x27 is already running")), w)
    else
      let cmd := kvmClient.buildQEMUCommand cfg metadata
      let w1 := w.emit (Event.start cmd.1 cmd.2)
      match env.spawn with
      | none => (some (Err.wrap "failed to start VM" (Err.execFailed cmd.1)), w1)
      | some pid =>
        kvmClient.saveMetadata cfg { metadata with State := StateRunning, PID := pid } name w1

/-- The block `if metadata.PID > 0 { ... }` of `Stop`: a kill or an interrupt goes to the
process if the id is positive and `os.FindProcess` finds it; what the signal call returns is
dropped. -/
def kvmClient.signalProcess (env : Env) (pid : Int) (force : Bool) (w : World) : World :=
  if 0 < pid then
    if env.findProcess then
      if force then w.emit (Event.kill pid)
      else w.emit (Event.interrupt pid)
    else w
  else w

/-- The method `Stop`. -/
def kvmClient.Stop (cfg : Config) (env : Env) (name : String) (force : Bool) (w : World) :
    Option Err × World :=
  match kvmClient.loadMetadata cfg name w with
  | .error e => (some (Err.wrap "failed to load metadata" e), w)
  | .ok metadata =>
    if metadata.State ≠ StateRunning then
      (some (Err.msg ("instance \x27" ++ name ++ "\x27 is not running")), w)
    else
      let w1 := kvmClient.signalProcess env metadata.PID force w
      kvmClient.saveMetadata cfg { metadata with State := StateStopped, PID := 0 } name w1

/-- The method `Delete`. -/
def kvmClient.Delete (cfg : Config) (env : Env) (name : String) (_purge force : Bool)
    (w : World) : Option Err × World :=
  match kvmClient.loadMetadata cfg name w with
  | .error e => (some (Err.wrap "failed to load metadata" e), w)
  | .ok metadata =>
    match (if metadata.State = StateRunning then kvmClient.Stop cfg env name force w
        else (none, w)) with
    | (some e, w1) => (some (Err.wrap "failed to stop VM" e), w1)
    | (none, w1) => removeAll name w1

/-- The summary `List` builds from a record. -/
def instanceOf (metadata : InstanceMetadata) : Instance :=
  { Name := metadata.Name
    State := metadata.State
    IPv4 := metadata.IPv4
    Image := metadata.Image
    CPUs := metadata.CPUs
    Memory := metadata.Memory
    Disk := metadata.Disk }

/-- The body of the loop of `List` for one entry of `os.ReadDir`: `none` is `continue`. -/
def listEntry (cfg : Config) (w : World) (p : String × Entry) : Option Instance :=
  match p.2 with
  | Entry.file => none
  | Entry.dir _ =>
    match kvmClient.loadMetadata cfg p.1 w with
    | .error _ => none
    | .ok metadata => some (instanceOf metadata)

/-- The method `List`. -/
def kvmClient.List (cfg : Config) (w : World) : List Instance × Option Err :=
  match w.root with
  | none => ([], none)
  | some entries => (entries.filterMap (listEntry cfg w), none)

/-! ## `internal/ssh/client.go` -/

/-- One second as a `time.Duration`, in nanoseconds. -/
def second : Nat := 1000000000

/-- The method `getInstanceAddress`.  The port is summed in the naturals, which is the Go
`int` as long as the sum stays below 2^63, as it does for every name that fits in memory. -/
def sshClient.getInstanceAddress (name : String) : String × Nat :=
  let port := name.data.foldl (fun port char => port + char.toNat) 2222
  ("127.0.0.1", 2222 + port % 1000)

/-- The loop of `WaitForConnection`, `elapsed` being `time.Since(start)`: the result is
whether a connection was made.  Every pass that does not connect takes a second at least,
so the loop has run out of time once `fuel` passes are used up when `fuel` is the timeout
in seconds. -/
def sshClient.waitLoop (timeout : Int) (addr : String) (dial : Nat → DialResult) :
    Nat → Nat → Nat → World → Bool × World
  | 0, _, _, w => (false, w)
  | fuel + 1, attempt, elapsed, w =>
    if (elapsed : Int) < timeout then
      let took := min (dial attempt).took (5 * second)
      let w1 := w.emit (Event.dial addr took)
      if (dial attempt).ok then
        (true, w1.emit (Event.sleep (2 * second)))
      else
        sshClient.waitLoop timeout addr dial fuel (attempt + 1) (elapsed + took + second)
          (w1.emit (Event.sleep second))
    else (false, w)

/-- The method `WaitForConnection`. -/
def sshClient.WaitForConnection (cfg : Config) (env : Env) (name : String) (w : World) :
    Option Err × World :=
  let (ip, port) := sshClient.getInstanceAddress name
  let timeout : Int := cfg.SSHTimeout * second
  match sshClient.waitLoop timeout (ip ++ ":" ++ toString port) env.dial
      cfg.SSHTimeout.toNat 0 0 w with
  | (true, w1) => (none, w1)
  | (false, w1) => (some (Err.msg ("timeout waiting for SSH connection to " ++ name)), w1)

/-- The method `sshClient.Shell`: the external `ssh` is run on the address of the name with
the terminal attached; `exit` is what `cmd.Run()` returns when the session ends. -/
def sshClient.Shell (cfg : Config) (exit : Option Err) (name : String) (w : World) :
    Option Err × World :=
  let (ip, port) := sshClient.getInstanceAddress name
  let w1 := w.emit (Event.run "ssh"
    ["-i", cfg.SSHKeyPath,
     "-o", "StrictHostKeyChecking=no",
     "-o", "UserKnownHostsFile=/dev/null",
     "-p", toString port,
     cfg.SSHUser ++ "@" ++ ip])
  (exit, w1)

/-! ## `internal/vm/manager.go` -/

/-- The constructor `NewManager`: `config.Load()` makes sure the instances root exists. -/
def NewManager (w : World) : World :=
  { w with root := some (w.root.getD []) }

/-- The method `instanceExists`. -/
def Manager.instanceExists (w : World) (name : String) : Bool :=
  statOk w name

/-- The method `prepareImage`. -/
def Manager.prepareImage (_image instanceDir : String) : Except Err String :=
  let imagePath := joinPath instanceDir "disk.qcow2"
  .ok imagePath

/-- The function `generateInstanceName`. -/
def generateInstanceName : String :=
  let adjectives := ["keen", "bold", "swift", "bright", "calm", "eager"]
  let animals := ["butterfly", "dolphin", "eagle", "fox", "hawk", "lion"]
  let adj := adjectives.getD (adjectives.length % 6) ""
  let animal := animals.getD (animals.length % 6) ""
  adj ++ "-" ++ animal

/-- The name `Launch` works with: the one of the request, or a generated one. -/
def launchName (config : LaunchConfig) : String :=
  if config.Name = "" then generateInstanceName else config.Name

/-- The method `Launch`. -/
def Manager.Launch (cfg : Config) (env : Env) (config : LaunchConfig) (w : World) :
    Option Err × World :=
  let config := { config with Name := launchName config }
  if Manager.instanceExists w config.Name then
    (some (Err.msg ("instance \x27" ++ config.Name ++ "\x27 already exists")), w)
  else
    let w0 := w.emit (Event.print ("Launching " ++ config.Name ++ "...\n"))
    let instanceDir := instanceDirPath cfg config.Name
    match mkdirAll cfg config.Name w0 with
    | (some e, w1) => (some (Err.wrap "failed to create instance directory" e), w1)
    | (none, w1) =>
      match Manager.prepareImage config.Image instanceDir with
      | .error e => (some (Err.wrap "failed to prepare image" e), w1)
      | .ok imagePath =>
        let vmConfig : VMConfig :=
          { Name := config.Name
            ImagePath := imagePath
            CPUs := config.CPUs
            Memory := config.Memory
            Disk := config.Disk
            CloudInit := config.CloudInit }
        match kvmClient.Create cfg env vmConfig w1 with
        | (some e, w2) => (some (Err.wrap "failed to create VM" e), w2)
        | (none, w2) =>
          match kvmClient.Start cfg env config.Name w2 with
          | (some e, w3) => (some (Err.wrap "failed to start VM" e), w3)
          | (none, w3) =>
            let w4 := w3.emit (Event.print ("Waiting for " ++ config.Name ++ " to be ready...\n"))
            match sshClient.WaitForConnection cfg env config.Name w4 with
            | (some e, w5) => (some (Err.wrap "failed to establish SSH connection" e), w5)
            | (none, w5) => (none, w5.emit (Event.print ("Launched: " ++ config.Name ++ "\n")))

/-- The method `Manager.Start`. -/
def Manager.Start (cfg : Config) (env : Env) (name : String) (w : World) : Option Err × World :=
  kvmClient.Start cfg env name w

/-- The method `Manager.Stop`. -/
def Manager.Stop (cfg : Config) (env : Env) (name : String) (force : Bool) (w : World) :
    Option Err × World :=
  kvmClient.Stop cfg env name force w

/-- The method `Manager.Delete`. -/
def Manager.Delete (cfg : Config) (env : Env) (name : String) (purge force : Bool)
    (w : World) : Option Err × World :=
  kvmClient.Delete cfg env name purge force w

/-- The method `Manager.List`. -/
def Manager.List (cfg : Config) (w : World) : List Instance × Option Err :=
  kvmClient.List cfg w

/-- The block `if name == "" { ... }` of `Manager.Shell`: the name the session goes to, the
one given or that of the only running instance of the listing. -/
def Manager.shellName (cfg : Config) (name : String) (w : World) : Except Err String :=
  if name = "" then
    match Manager.List cfg w with
    | (_, some err) => .error err
    | (instances, none) =>
      match instances.filter (fun inst => decide (inst.State = "Running")) with
      | [] => .error (Err.msg "no running instances found")
      | [inst] => .ok inst.Name
      | _ :: _ :: _ => .error (Err.msg "multiple instances running, please specify name")
  else .ok name

/-- The method `Manager.Shell`. -/
def Manager.Shell (cfg : Config) (exit : Option Err) (name : String) (w : World) :
    Option Err × World :=
  match Manager.shellName cfg name w with
  | .error err => (some err, w)
  | .ok target => sshClient.Shell cfg exit target w

/-! ## `cmd/start.go`, `cmd/delete.go`

The loops of the three batch commands.  The call number `i` of the loop gets its answers
from the outside from `envs i`. -/

/-- The loop of `startCmd.RunE` from its call number `i` on. -/
def startCmd.loop (cfg : Config) (envs : Nat → Env) :
    List String → Nat → World → Option Err × World
  | [], _, w => (none, w)
  | name :: rest, i, w =>
    match Manager.Start cfg (envs i) name w with
    | (some e, w1) => (some (Err.wrap ("failed to start " ++ name) e), w1)
    | (none, w1) =>
      startCmd.loop cfg envs rest (i + 1) (w1.emit (Event.print ("Started: " ++ name ++ "\n")))

/-- The function `startCmd.RunE`. -/
def startCmd.RunE (cfg : Config) (envs : Nat → Env) (args : List String) (w : World) :
    Option Err × World :=
  startCmd.loop cfg envs args 0 (NewManager w)

/-- The loop of `stopCmd.RunE` from its call number `i` on. -/
def stopCmd.loop (cfg : Config) (envs : Nat → Env) (force : Bool) :
    List String → Nat → World → Option Err × World
  | [], _, w => (none, w)
  | name :: rest, i, w =>
    match Manager.Stop cfg (envs i) name force w with
    | (some e, w1) => (some (Err.wrap ("failed to stop " ++ name) e), w1)
    | (none, w1) =>
      stopCmd.loop cfg envs force rest (i + 1)
        (w1.emit (Event.print ("Stopped: " ++ name ++ "\n")))

/-- The function `stopCmd.RunE`, `force` being the flag of that name. -/
def stopCmd.RunE (cfg : Config) (envs : Nat → Env) (force : Bool) (args : List String)
    (w : World) : Option Err × World :=
  stopCmd.loop cfg envs force args 0 (NewManager w)

/-- The loop of `deleteCmd.RunE` from its call number `i` on. -/
def deleteCmd.loop (cfg : Config) (envs : Nat → Env) (purge force : Bool) :
    List String → Nat → World → Option Err × World
  | [], _, w => (none, w)
  | name :: rest, i, w =>
    match Manager.Delete cfg (envs i) name purge force w with
    | (some e, w1) => (some (Err.wrap ("failed to delete " ++ name) e), w1)
    | (none, w1) =>
      deleteCmd.loop cfg envs purge force rest (i + 1)
        (w1.emit (Event.print ("Deleted: " ++ name ++ "\n")))

/-- The function `deleteCmd.RunE`, `purge` and `force` being the flags of those names. -/
def deleteCmd.RunE (cfg : Config) (envs : Nat → Env) (purge force : Bool)
    (args : List String) (w : World) : Option Err × World :=
  deleteCmd.loop cfg envs purge force args 0 (NewManager w)

/-! ## `cmd/launch.go` -/

/-- The pieces of a list of characters between the occurrences of a separator. -/
def splitChars (sep : Char) : List Char → List (List Char)
  | [] => [[]]
  | c :: rest =>
    if c = sep then [] :: splitChars sep rest
    else
      match splitChars sep rest with
      | [] => [[c]]
      | part :: parts => (c :: part) :: parts

/-- The call `strings.Split(s, sep)` for a separator of one character. -/
def stringsSplit (s : String) (sep : Char) : List String :=
  (splitChars sep s.data).map String.mk

/-- The function `isValidImage`. -/
def isValidImage (image : String) : Bool :=
  let validDistros := [
    "slackware", "debian", "fedora", "almalinux",
    "rockylinux", "centos", "gentoo", "opensuse"]
  let parts := stringsSplit image ':'
  let distro := parts.headD ""
  validDistros.any (fun valid => decide (distro = valid))

/-- The function `launchCmd.RunE`, `cpus`, `memory`, `disk` and `cloudInit` being the flags
of those names. -/
def launchCmd.RunE (cfg : Config) (env : Env) (args : List String) (cpus : Int)
    (memory disk cloudInit : String) (w : World) : Option Err × World :=
  let image := if args.length ≥ 1 then args.headD "" else "debian:bookworm"
  let name := if args.length ≥ 2 then args.getD 1 "" else ""
  if !isValidImage image then
    (some (Err.msg ("invalid image format: " ++ image)), w)
  else
    let config : LaunchConfig :=
      { Image := image
        Name := name
        CPUs := cpus
        Memory := memory
        Disk := disk
        CloudInit := cloudInit }
    Manager.Launch cfg env config (NewManager w)

/-! ## Predicates of the specification -/

/-- The part of an image string before its first colon, the whole string if it has none. -/
def distroPart (image : String) : String :=
  String.mk (image.data.takeWhile (fun c => decide (c ≠ ':')))

/-- The eight supported distributions. -/
def supportedDistros : List String :=
  ["slackware", "debian", "fedora", "almalinux", "rockylinux", "centos", "gentoo", "opensuse"]


/-- A valid record: both timestamps can be rendered as RFC 3339. -/
def validRecord (m : InstanceMetadata) : Bool :=
  m.CreatedAt.inRange && m.UpdatedAt.inRange

/-- The name has an instance directory. -/
def World.hasDir (w : World) (name : String) : Prop :=
  ∃ d, w.entry name = some (Entry.dir d)

/-- No two entries of the instances root have the same name. -/
def World.namesUnique (w : World) : Prop :=
  ((w.root.getD []).map Prod.fst).Nodup

/-- The summary the specification asks of `list()` for one entry of the root: that of the
record the entry holds, if the entry is a directory whose record is there and decodes. -/
def summaryOf (p : String × Entry) : Option Instance :=
  match p.2 with
  | Entry.file => none
  | Entry.dir d =>
    match d.metadata with
    | none => none
    | some data =>
      match jsonUnmarshal data with
      | .error _ => none
      | .ok metadata => some (instanceOf metadata)

/-- The listing the specification asks of `list()`: the empty list on a missing root, else
one summary for each entry that has one, in the order of the entries. -/
def listingOf (w : World) : List Instance :=
  match w.root with
  | none => []
  | some entries => entries.filterMap summaryOf

/-- The time the events of a trace take: the connection attempts and the sleeps. -/
def elapsedOf : List Event → Nat
  | [] => 0
  | Event.dial _ took :: rest => took + elapsedOf rest
  | Event.sleep ns :: rest => ns + elapsedOf rest
  | _ :: rest => elapsedOf rest

/-- Every record is stored in the directory of its own name. -/
def WellKeyed (cfg : Config) (w : World) : Prop :=
  ∀ name m, kvmClient.loadMetadata cfg name w = .ok m → m.Name = name

/-- Every record at rest with a process id is running. -/
def PidInvariant (cfg : Config) (w : World) : Prop :=
  ∀ name m, kvmClient.loadMetadata cfg name w = .ok m → m.PID ≠ 0 → m.State = StateRunning

/-- The record `Create` writes for a configuration. -/
def createdRecord (cfg : Config) (env : Env) (config : VMConfig) : InstanceMetadata :=
  { InstanceMetadata.zero with
    Name := config.Name
    Image := config.ImagePath
    CPUs := config.CPUs
    Memory := config.Memory
    Disk := config.Disk
    DiskPath := joinPath (instanceDirPath cfg config.Name) "disk.qcow2"
    CloudInit :=
      if config.CloudInit ≠ "" then joinPath (instanceDirPath cfg config.Name) "cloud-init.iso"
      else ""
    CreatedAt := env.now
    State := StateStopped }

/-- The configuration `Launch` hands to `Create`. -/
def launchVMConfig (cfg : Config) (config : LaunchConfig) : VMConfig :=
  { Name := launchName config
    ImagePath := joinPath (instanceDirPath cfg (launchName config)) "disk.qcow2"
    CPUs := config.CPUs
    Memory := config.Memory
    Disk := config.Disk
    CloudInit := config.CloudInit }

/-- The record of a launched instance once `Start` has stored the process id. -/
def launchedRecord (cfg : Config) (env : Env) (config : LaunchConfig) (pid : Int) :
    InstanceMetadata :=
  { createdRecord cfg env (launchVMConfig cfg config) with State := StateRunning, PID := pid }

/-- A kill or an interrupt. -/
def Event.isSignal : Event → Bool
  | .kill _ => true
  | .interrupt _ => true
  | _ => false

/-- A process run or started. -/
def Event.isProcess : Event → Bool
  | .run _ _ => true
  | .start _ _ => true
  | _ => false

/-- Every record that loads from `w1` loads from `w` as well or has no process id unless it
is running: what a step from `w` to `w1` has to keep for `PidInvariant`. -/
def PidStep (cfg : Config) (w w1 : World) : Prop :=
  ∀ name m, kvmClient.loadMetadata cfg name w1 = .ok m →
    kvmClient.loadMetadata cfg name w = .ok m ∨ (m.PID ≠ 0 → m.State = StateRunning)

/-- A call of one of the operations that change the store. -/
inductive Op where
  | launch (config : LaunchConfig)
  | create (config : VMConfig)
  | start (name : String)
  | stop (name : String) (force : Bool)
  | delete (name : String) (purge force : Bool)

/-- The call run against a world, with the answers of the outside for it. -/
def Op.run (cfg : Config) (env : Env) : Op → World → Option Err × World
  | .launch config, w => Manager.Launch cfg env config w
  | .create config, w => kvmClient.Create cfg env config w
  | .start name, w => kvmClient.Start cfg env name w
  | .stop name force, w => kvmClient.Stop cfg env name force w
  | .delete name purge force, w => kvmClient.Delete cfg env name purge force w

/-- A sequence of calls run one after the other, failing calls included. -/
def runOps (cfg : Config) : List (Env × Op) → World → World
  | [], w => w
  | (env, op) :: rest, w => runOps cfg rest (op.run cfg env w).2

/-- The empty store: no instances root yet, nothing done to the outside. -/
def emptyWorld : World :=
  { root := none, trace := [] }

/-- The instances of the listing whose state is `Running`. -/
def runningOf (cfg : Config) (w : World) : List Instance :=
  (Manager.List cfg w).1.filter (fun inst => decide (inst.State = "Running"))

/-- The event of an `ssh` session opened on the address of the name. -/
def sessionEvent (cfg : Config) (name : String) : Event :=
  Event.run "ssh"
    ["-i", cfg.SSHKeyPath,
     "-o", "StrictHostKeyChecking=no",
     "-o", "UserKnownHostsFile=/dev/null",
     "-p", toString (sshClient.getInstanceAddress name).2,
     cfg.SSHUser ++ "@" ++ (sshClient.getInstanceAddress name).1]

/-! ## Sample inputs -/

/-- A configuration as `getDefaults` builds it for the home directory `/home/u`. -/
def sampleConfig : Config :=
  { InstancesDir := "/home/u/.slackpass/instances"
    QEMUBinary := "qemu-system-x86_64"
    QEMUImgBinary := "qemu-img"
    SSHKeyPath := "/home/u/.slackpass/keys/slackpass_rsa"
    SSHUser := "ubuntu"
    SSHTimeout := 30 }

/-- A record as `Create` writes it: stopped, no process id, no cloud-init, no addresses. -/
def sampleStopped : InstanceMetadata :=
  { InstanceMetadata.zero with
    Name := "t1"
    Image := "/home/u/.slackpass/instances/t1/disk.qcow2"
    CPUs := 2
    Memory := "2G"
    Disk := "20G"
    DiskPath := "/home/u/.slackpass/instances/t1/disk.qcow2"
    CreatedAt := ⟨63900000000000000000⟩
    State := StateStopped }

/-- An outside where everything works: `qemu-img` exits with 0, the hypervisor gets the
process id 4242, and the first connection attempt succeeds after 10 ms. -/
def sampleEnv : Env :=
  { now := ⟨63900000000000000000⟩
    now_ok := by decide
    qemuImg := true
    spawn := some 4242
    findProcess := true
    signal := true
    dial := fun _ => ⟨true, 10000000⟩ }

/-- The launch request of the scenarios of the specification. -/
def sampleLaunch : LaunchConfig :=
  { Image := "debian:bookworm", Name := "t1", CPUs := 2, Memory := "2G", Disk := "20G",
    CloudInit := "" }

/-- The record of `t1` after the sample launch. -/
def sampleRunning : InstanceMetadata :=
  { sampleStopped with State := StateRunning, PID := 4242 }

/-- A running record called `name` with the process id `pid`. -/
def runningRecord (name : String) (pid : Int) : InstanceMetadata :=
  { InstanceMetadata.zero with
    Name := name
    Image := "/home/u/.slackpass/instances/" ++ name ++ "/disk.qcow2"
    CPUs := 1
    Memory := "1G"
    Disk := "10G"
    DiskPath := "/home/u/.slackpass/instances/" ++ name ++ "/disk.qcow2"
    CreatedAt := ⟨63900000000000000000⟩
    State := StateRunning
    PID := pid }

/-- The instance directory of a running record. -/
def runningDir (name : String) (pid : Int) : String × Entry :=
  (name, Entry.dir ⟨some (FileData.object (marshalMembers (runningRecord name pid))), true⟩)

/-- A world with the running instances `a` and `c` and no instance `b`. -/
def sampleAC : World :=
  { root := some [runningDir "a" 101, runningDir "c" 103], trace := [] }

/-- A world in which `t1` is running with the process id 4242, next to the running `a`. -/
def sampleT1 : World :=
  { root := some [runningDir "a" 101,
      ("t1", Entry.dir ⟨some (FileData.object (marshalMembers sampleRunning)), true⟩)],
    trace := [] }

/-- An outside where the instance starts but never answers: every connection attempt fails
after a second. -/
def sampleSilentEnv : Env :=
  { sampleEnv with dial := fun _ => ⟨false, 1000000000⟩ }

/-- An outside where every connection attempt fails after four and a half seconds. -/
def sampleSlowEnv : Env :=
  { sampleEnv with dial := fun _ => ⟨false, 4500000000⟩ }

/-- A world with a plain file, a directory without record, a directory with an unreadable
record and the running instance `t1`. -/
def sampleMixed : World :=
  { root := some [("README", Entry.file), ("empty", Entry.dir ⟨none, false⟩),
      ("junk", Entry.dir ⟨some FileData.garbage, true⟩),
      ("t1", Entry.dir ⟨some (FileData.object (marshalMembers sampleRunning)), true⟩)],
    trace := [] }

/-- A world whose root holds the empty instance directory `t1`. -/
def sampleEmptyDir : World :=
  { root := some [("t1", Entry.dir ⟨none, false⟩)], trace := [] }

/-- A world in which `t1` is stopped. -/
def sampleStoppedT1 : World :=
  { root := some [("t1", Entry.dir ⟨some (FileData.object (marshalMembers sampleStopped)), true⟩)],
    trace := [] }

/-- The sample launch request without a name. -/
def sampleUnnamed : LaunchConfig :=
  { sampleLaunch with Name := "" }

/-- The sample outside a second later. -/
def sampleLaterEnv : Env :=
  { sampleEnv with now := ⟨63900000001000000000⟩, now_ok := by decide }

/-- An outside where `qemu-img` fails. -/
def sampleNoDiskEnv : Env :=
  { sampleEnv with qemuImg := false }

/-! ## Lemmas: the JSON codec -/

theorem unmarshal_marshalMembers (m : InstanceMetadata) (h : validRecord m = true) :
    unmarshalMembers (marshalMembers m) InstanceMetadata.zero = .ok m := by
  obtain ⟨n, i, c, me, d, dp, ci, s, p, ip, mac, ca, ua⟩ := m
  simp only [validRecord, Bool.and_eq_true] at h
  obtain ⟨h1, h2⟩ := h
  by_cases hci : ci = "" <;> by_cases hp : p = 0 <;> by_cases hip : ip = "" <;>
    by_cases hmac : mac = "" <;>
    simp [marshalMembers, omitEmptyStr, omitEmptyInt, unmarshalMembers, setField, decodeStr,
      decodeInt, decodeTime, InstanceMetadata.zero, hci, hp, hip, hmac, h1, h2]

theorem jsonMarshal_valid (m : InstanceMetadata) (h : validRecord m = true) :
    jsonMarshal m = .ok (FileData.object (marshalMembers m)) := by
  unfold validRecord at h
  simp [jsonMarshal, h]

theorem jsonUnmarshal_marshal (m : InstanceMetadata) (h : validRecord m = true) :
    jsonUnmarshal (FileData.object (marshalMembers m)) = .ok m :=
  unmarshal_marshalMembers m h

theorem decodeTime_inRange {old t : Time} {v : JVal} (hold : old.inRange = true)
    (h : decodeTime old v = some t) : t.inRange = true := by
  cases v <;> simp [decodeTime] at h
  · exact h ▸ hold
  · exact h.2 ▸ h.1

theorem setField_valid {m m1 : InstanceMetadata} {key : String} {v : JVal}
    (hm : validRecord m = true) (h : setField m key v = some m1) : validRecord m1 = true := by
  simp only [validRecord, Bool.and_eq_true] at hm ⊢
  unfold setField at h
  by_cases k0 : key = "name"
  · rw [if_pos k0] at h
    obtain ⟨x, hx, rfl⟩ := Option.map_eq_some'.mp h
    exact hm
  rw [if_neg k0] at h
  by_cases k1 : key = "image"
  · rw [if_pos k1] at h
    obtain ⟨x, hx, rfl⟩ := Option.map_eq_some'.mp h
    exact hm
  rw [if_neg k1] at h
  by_cases k2 : key = "cpus"
  · rw [if_pos k2] at h
    obtain ⟨x, hx, rfl⟩ := Option.map_eq_some'.mp h
    exact hm
  rw [if_neg k2] at h
  by_cases k3 : key = "memory"
  · rw [if_pos k3] at h
    obtain ⟨x, hx, rfl⟩ := Option.map_eq_some'.mp h
    exact hm
  rw [if_neg k3] at h
  by_cases k4 : key = "disk"
  · rw [if_pos k4] at h
    obtain ⟨x, hx, rfl⟩ := Option.map_eq_some'.mp h
    exact hm
  rw [if_neg k4] at h
  by_cases k5 : key = "disk_path"
  · rw [if_pos k5] at h
    obtain ⟨x, hx, rfl⟩ := Option.map_eq_some'.mp h
    exact hm
  rw [if_neg k5] at h
  by_cases k6 : key = "cloud_init"
  · rw [if_pos k6] at h
    obtain ⟨x, hx, rfl⟩ := Option.map_eq_some'.mp h
    exact hm
  rw [if_neg k6] at h
  by_cases k7 : key = "state"
  · rw [if_pos k7] at h
    obtain ⟨x, hx, rfl⟩ := Option.map_eq_some'.mp h
    exact hm
  rw [if_neg k7] at h
  by_cases k8 : key = "pid"
  · rw [if_pos k8] at h
    obtain ⟨x, hx, rfl⟩ := Option.map_eq_some'.mp h
    exact hm
  rw [if_neg k8] at h
  by_cases k9 : key = "ipv4"
  · rw [if_pos k9] at h
    obtain ⟨x, hx, rfl⟩ := Option.map_eq_some'.mp h
    exact hm
  rw [if_neg k9] at h
  by_cases k10 : key = "mac"
  · rw [if_pos k10] at h
    obtain ⟨x, hx, rfl⟩ := Option.map_eq_some'.mp h
    exact hm
  rw [if_neg k10] at h
  by_cases k11 : key = "created_at"
  · rw [if_pos k11] at h
    obtain ⟨x, hx, rfl⟩ := Option.map_eq_some'.mp h
    exact ⟨decodeTime_inRange hm.1 hx, hm.2⟩
  rw [if_neg k11] at h
  by_cases k12 : key = "updated_at"
  · rw [if_pos k12] at h
    obtain ⟨x, hx, rfl⟩ := Option.map_eq_some'.mp h
    exact ⟨hm.1, decodeTime_inRange hm.2 hx⟩
  rw [if_neg k12] at h
  cases h
  exact hm

theorem unmarshalMembers_valid (members : List (String × JVal)) (m0 m : InstanceMetadata)
    (h0 : validRecord m0 = true) (h : unmarshalMembers members m0 = .ok m) :
    validRecord m = true := by
  induction members generalizing m0 with
  | nil =>
    simp only [unmarshalMembers, Except.ok.injEq] at h
    exact h ▸ h0
  | cons p rest ih =>
    obtain ⟨key, v⟩ := p
    simp only [unmarshalMembers] at h
    cases hs : setField m0 key v with
    | none => simp [hs] at h
    | some m1 =>
      simp only [hs] at h
      exact ih m1 (setField_valid h0 hs) h

theorem jsonUnmarshal_valid {data : FileData} {m : InstanceMetadata}
    (h : jsonUnmarshal data = .ok m) : validRecord m = true := by
  cases data with
  | garbage => simp [jsonUnmarshal] at h
  | object members =>
    exact unmarshalMembers_valid members InstanceMetadata.zero m (by decide) h

/-! ## Lemmas: directory listings and the world -/

theorem findEntry_setEntry_self {name : String} {e : Entry} {es : List (String × Entry)}
    (h : (findEntry name es).isSome = true) : findEntry name (setEntry name e es) = some e := by
  induction es with
  | nil => simp [findEntry] at h
  | cons p rest ih =>
    obtain ⟨n, x⟩ := p
    by_cases hn : n = name
    · simp only [setEntry, if_pos hn, findEntry]
    · simp only [findEntry, if_neg hn] at h
      simp only [setEntry, if_neg hn, findEntry]
      exact ih h

theorem findEntry_setEntry_ne {m name : String} {e : Entry} {es : List (String × Entry)}
    (h : m ≠ name) : findEntry m (setEntry name e es) = findEntry m es := by
  induction es with
  | nil => rfl
  | cons p rest ih =>
    obtain ⟨n, x⟩ := p
    by_cases hn : n = name
    · have hm : ¬ n = m := fun hh => h (hh ▸ hn)
      simp only [setEntry, if_pos hn, findEntry, if_neg hm, ih]
    · by_cases hnm : n = m
      · simp only [setEntry, if_neg hn, findEntry, if_pos hnm]
      · simp only [setEntry, if_neg hn, findEntry, if_neg hnm, ih]

theorem findEntry_insertEntry_self {name : String} {e : Entry} {es : List (String × Entry)}
    (h : findEntry name es = none) : findEntry name (insertEntry name e es) = some e := by
  induction es with
  | nil => simp only [insertEntry, findEntry, if_true]
  | cons p rest ih =>
    obtain ⟨n, x⟩ := p
    by_cases hn : n = name
    · simp [findEntry, if_pos hn] at h
    · simp only [findEntry, if_neg hn] at h
      by_cases hlt : name.data < n.data
      · simp only [insertEntry, if_pos hlt, findEntry, if_true]
      · simp only [insertEntry, if_neg hlt, findEntry, if_neg hn]
        exact ih h

theorem findEntry_insertEntry_ne {m name : String} {e : Entry} {es : List (String × Entry)}
    (h : m ≠ name) : findEntry m (insertEntry name e es) = findEntry m es := by
  have hm : ¬ name = m := fun hh => h hh.symm
  induction es with
  | nil => simp only [insertEntry, findEntry, if_neg hm]
  | cons p rest ih =>
    obtain ⟨n, x⟩ := p
    by_cases hlt : name.data < n.data
    · simp only [insertEntry, if_pos hlt, findEntry, if_neg hm]
    · by_cases hnm : n = m
      · simp only [insertEntry, if_neg hlt, findEntry, if_pos hnm]
      · simp only [insertEntry, if_neg hlt, findEntry, if_neg hnm, ih]

theorem findEntry_removeEntry_self (name : String) (es : List (String × Entry)) :
    findEntry name (removeEntry name es) = none := by
  induction es with
  | nil => rfl
  | cons p rest ih =>
    obtain ⟨n, x⟩ := p
    by_cases hn : n = name
    · simp only [removeEntry, if_pos hn, ih]
    · simp only [removeEntry, if_neg hn, findEntry, ih]

theorem findEntry_removeEntry_ne {m name : String} (es : List (String × Entry))
    (h : m ≠ name) : findEntry m (removeEntry name es) = findEntry m es := by
  induction es with
  | nil => rfl
  | cons p rest ih =>
    obtain ⟨n, x⟩ := p
    by_cases hn : n = name
    · have hm : ¬ n = m := fun hh => h (hh ▸ hn)
      simp only [removeEntry, if_pos hn, findEntry, if_neg hm, ih]
    · by_cases hnm : n = m
      · simp only [removeEntry, if_neg hn, findEntry, if_pos hnm]
      · simp only [removeEntry, if_neg hn, findEntry, if_neg hnm, ih]

theorem mem_removeEntry {name : String} {es : List (String × Entry)} {p : String × Entry}
    (h : p ∈ removeEntry name es) : p ∈ es ∧ p.1 ≠ name := by
  induction es with
  | nil => simp [removeEntry] at h
  | cons q rest ih =>
    obtain ⟨n, x⟩ := q
    by_cases hn : n = name
    · simp only [removeEntry, if_pos hn] at h
      exact ⟨List.mem_cons_of_mem _ (ih h).1, (ih h).2⟩
    · simp only [removeEntry, if_neg hn, List.mem_cons] at h
      rcases h with h | h
      · subst h
        exact ⟨List.mem_cons_self _ _, hn⟩
      · exact ⟨List.mem_cons_of_mem _ (ih h).1, (ih h).2⟩

theorem findEntry_mem {name : String} {e : Entry} {es : List (String × Entry)}
    (h : findEntry name es = some e) : (name, e) ∈ es := by
  induction es with
  | nil => simp [findEntry] at h
  | cons p rest ih =>
    obtain ⟨n, x⟩ := p
    by_cases hn : n = name
    · simp only [findEntry, hn, if_true, Option.some.injEq] at h
      simp [hn, h]
    · simp only [findEntry, hn, if_false] at h
      exact List.mem_cons_of_mem _ (ih h)

theorem World.entry_mem {w : World} {name : String} {e : Entry} (h : w.entry name = some e) :
    ∃ es, w.root = some es ∧ (name, e) ∈ es := by
  unfold World.entry at h
  cases hr : w.root with
  | none => simp [hr] at h
  | some es =>
    simp only [hr] at h
    exact ⟨es, rfl, findEntry_mem h⟩

@[simp] theorem World.emit_entry (w : World) (e : Event) (name : String) :
    (w.emit e).entry name = w.entry name := rfl

@[simp] theorem World.emit_root (w : World) (e : Event) : (w.emit e).root = w.root := rfl

@[simp] theorem World.emit_trace (w : World) (e : Event) :
    (w.emit e).trace = w.trace ++ [e] := rfl

@[simp] theorem World.put_trace (w : World) (name : String) (e : Entry) :
    (w.put name e).trace = w.trace := rfl

theorem World.put_entry_self {w : World} {name : String} (e : Entry)
    (h : (w.entry name).isSome = true) : (w.put name e).entry name = some e := by
  unfold World.entry World.put at *
  cases hr : w.root with
  | none => simp [hr] at h
  | some es =>
    simp only [hr] at h
    simpa using findEntry_setEntry_self h

theorem World.put_entry_ne {w : World} {m name : String} (e : Entry) (h : m ≠ name) :
    (w.put name e).entry m = w.entry m := by
  unfold World.entry World.put
  cases hr : w.root with
  | none => rfl
  | some es => simpa using findEntry_setEntry_ne h

/-! ## Lemmas: loading and saving the record -/

theorem loadMetadata_of_entry {cfg : Config} {name : String} {w : World} {d : InstanceDir}
    {data : FileData} (h : w.entry name = some (Entry.dir d)) (hd : d.metadata = some data) :
    kvmClient.loadMetadata cfg name w = jsonUnmarshal data := by
  simp [kvmClient.loadMetadata, readMetadataFile, h, hd]

theorem loadMetadata_congr {cfg : Config} {name : String} {w1 w2 : World}
    (h : w1.entry name = w2.entry name) :
    kvmClient.loadMetadata cfg name w1 = kvmClient.loadMetadata cfg name w2 := by
  simp [kvmClient.loadMetadata, readMetadataFile, h]

theorem loadMetadata_ok_entry {cfg : Config} {name : String} {w : World}
    {m : InstanceMetadata} (h : kvmClient.loadMetadata cfg name w = .ok m) :
    ∃ d data, w.entry name = some (Entry.dir d) ∧ d.metadata = some data ∧
      jsonUnmarshal data = .ok m := by
  unfold kvmClient.loadMetadata readMetadataFile at h
  cases he : w.entry name with
  | none => simp [he] at h
  | some e =>
    cases e with
    | file => simp [he] at h
    | dir d =>
      cases hd : d.metadata with
      | none => simp [he, hd] at h
      | some data =>
        simp only [he, hd] at h
        exact ⟨d, data, rfl, hd, h⟩

theorem loadMetadata_valid {cfg : Config} {name : String} {w : World} {m : InstanceMetadata}
    (h : kvmClient.loadMetadata cfg name w = .ok m) : validRecord m = true := by
  obtain ⟨_, _, _, _, hu⟩ := loadMetadata_ok_entry h
  exact jsonUnmarshal_valid hu

theorem saveMetadata_dir {cfg : Config} {name : String} {w : World} {d : InstanceDir}
    {r : InstanceMetadata} (h : w.entry name = some (Entry.dir d))
    (hr : validRecord r = true) :
    kvmClient.saveMetadata cfg r name w =
      (none, w.put name (Entry.dir { d with metadata := some (FileData.object (marshalMembers r)) })) := by
  simp [kvmClient.saveMetadata, jsonMarshal_valid r hr, writeMetadataFile, h]

theorem loadMetadata_put (cfg : Config) {name : String} {w : World} {r : InstanceMetadata}
    (disk : Bool) (h : (w.entry name).isSome = true) (hr : validRecord r = true) :
    kvmClient.loadMetadata cfg name
      (w.put name (Entry.dir ⟨some (FileData.object (marshalMembers r)), disk⟩)) = .ok r := by
  rw [loadMetadata_of_entry (World.put_entry_self _ h) rfl]
  exact jsonUnmarshal_marshal r hr

/-! ## Lemmas: the operations of `kvmClient` -/

@[simp] theorem signalProcess_entry (env : Env) (pid : Int) (force : Bool) (w : World)
    (name : String) : (kvmClient.signalProcess env pid force w).entry name = w.entry name := by
  unfold kvmClient.signalProcess
  split_ifs <;> rfl

@[simp] theorem signalProcess_root (env : Env) (pid : Int) (force : Bool) (w : World) :
    (kvmClient.signalProcess env pid force w).root = w.root := by
  unfold kvmClient.signalProcess
  split_ifs <;> rfl

theorem validRecord_stopped {m : InstanceMetadata} (h : validRecord m = true) (s : String)
    (pid : Int) : validRecord { m with State := s, PID := pid } = true := h

/-- What `Stop` does to a running record. -/
theorem Stop_running {cfg : Config} (env : Env) {name : String} (force : Bool) {w : World}
    {m : InstanceMetadata} (h : kvmClient.loadMetadata cfg name w = .ok m)
    (hs : m.State = StateRunning) :
    ∃ d, w.entry name = some (Entry.dir d) ∧
      kvmClient.Stop cfg env name force w =
        (none, (kvmClient.signalProcess env m.PID force w).put name
          (Entry.dir ⟨some (FileData.object
            (marshalMembers { m with State := StateStopped, PID := 0 })), d.disk⟩)) := by
  obtain ⟨d, data, he, _, _⟩ := loadMetadata_ok_entry h
  refine ⟨d, he, ?_⟩
  have hv := validRecord_stopped (loadMetadata_valid h) StateStopped 0
  have he1 : (kvmClient.signalProcess env m.PID force w).entry name = some (Entry.dir d) := by
    simpa using he
  simp only [kvmClient.Stop, h, hs, ne_eq, not_true_eq_false, if_false]
  exact saveMetadata_dir he1 hv

/-- When `Stop` fails it leaves the world as it was. -/
theorem Stop_error (cfg : Config) (env : Env) (name : String) (force : Bool) (w : World)
    (h : ∀ m, kvmClient.loadMetadata cfg name w = .ok m → m.State ≠ StateRunning) :
    (kvmClient.Stop cfg env name force w).1 ≠ none ∧ (kvmClient.Stop cfg env name force w).2 = w := by
  unfold kvmClient.Stop
  cases hl : kvmClient.loadMetadata cfg name w with
  | error e => simp
  | ok m => simp [h m hl]

/-- What `Start` does to a record that is not running when the spawn succeeds. -/
theorem Start_spawned {cfg : Config} (env : Env) {name : String} {w : World}
    {m : InstanceMetadata} {pid : Int} (h : kvmClient.loadMetadata cfg name w = .ok m)
    (hs : m.State ≠ StateRunning) (hp : env.spawn = some pid) :
    ∃ d, w.entry name = some (Entry.dir d) ∧
      kvmClient.Start cfg env name w =
        (none, (w.emit (Event.start (kvmClient.buildQEMUCommand cfg m).1
            (kvmClient.buildQEMUCommand cfg m).2)).put name
          (Entry.dir ⟨some (FileData.object
            (marshalMembers { m with State := StateRunning, PID := pid })), d.disk⟩)) := by
  obtain ⟨d, data, he, _, _⟩ := loadMetadata_ok_entry h
  refine ⟨d, he, ?_⟩
  have hv := validRecord_stopped (loadMetadata_valid h) StateRunning pid
  simp only [kvmClient.Start, h, hs, if_false, hp]
  exact saveMetadata_dir (by simpa using he) hv

/-! ## Lemmas: steps that keep the process id invariant -/

theorem PidStep.refl (cfg : Config) (w : World) : PidStep cfg w w :=
  fun _ _ h => Or.inl h

theorem PidStep.trans {cfg : Config} {w w1 w2 : World} (h1 : PidStep cfg w w1)
    (h2 : PidStep cfg w1 w2) : PidStep cfg w w2 := by
  intro name m h
  rcases h2 name m h with h | h
  · exact h1 name m h
  · exact Or.inr h

theorem PidStep.of_entry {cfg : Config} {w w1 : World}
    (h : ∀ name, w1.entry name = w.entry name) : PidStep cfg w w1 :=
  fun name _ hl => Or.inl (loadMetadata_congr (h name) ▸ hl)

theorem PidStep.put_record {cfg : Config} {w : World} {name : String} {r : InstanceMetadata}
    (disk : Bool) (he : (w.entry name).isSome = true) (hv : validRecord r = true)
    (hr : r.PID ≠ 0 → r.State = StateRunning) :
    PidStep cfg w (w.put name (Entry.dir ⟨some (FileData.object (marshalMembers r)), disk⟩)) := by
  intro n m h
  by_cases hn : n = name
  · subst hn
    rw [loadMetadata_put cfg disk he hv] at h
    cases h
    exact Or.inr hr
  · exact Or.inl (loadMetadata_congr (World.put_entry_ne _ hn) ▸ h)

theorem PidStep.put_disk {cfg : Config} {w : World} {name : String} {d : InstanceDir}
    (he : w.entry name = some (Entry.dir d)) (disk : Bool) :
    PidStep cfg w (w.put name (Entry.dir { d with disk := disk })) := by
  intro n m h
  by_cases hn : n = name
  · subst hn
    left
    have hsome : (w.entry n).isSome = true := by rw [he]; rfl
    have h1 := World.put_entry_self (Entry.dir { d with disk := disk }) hsome
    obtain ⟨d1, data, hd1, hdata, hu⟩ := loadMetadata_ok_entry h
    rw [h1] at hd1
    cases hd1
    rw [loadMetadata_of_entry he hdata]
    exact hu
  · exact Or.inl (loadMetadata_congr (World.put_entry_ne _ hn) ▸ h)

theorem mkdirAll_new {cfg : Config} {w : World} {name : String} (he : w.entry name = none) :
    mkdirAll cfg name w =
      (none, { w with root := some (insertEntry name (Entry.dir ⟨none, false⟩) (w.root.getD [])) }) := by
  unfold mkdirAll
  simp only [he]

theorem mkdirAll_entry_ne (cfg : Config) {w : World} {name n : String} (hn : n ≠ name) :
    (mkdirAll cfg name w).2.entry n = w.entry n := by
  cases he : w.entry name with
  | some e =>
    unfold mkdirAll
    cases e <;> simp only [he]
  | none =>
    rw [mkdirAll_new he]
    simp only [World.entry]
    rw [findEntry_insertEntry_ne hn]
    cases hr : w.root with
    | none => rfl
    | some es => rfl

theorem mkdirAll_entry_new (cfg : Config) {w : World} {name : String}
    (he : w.entry name = none) :
    (mkdirAll cfg name w).1 = none ∧
    (mkdirAll cfg name w).2.entry name = some (Entry.dir ⟨none, false⟩) ∧
    (mkdirAll cfg name w).2.trace = w.trace := by
  rw [mkdirAll_new he]
  refine ⟨rfl, ?_, rfl⟩
  simp only [World.entry]
  apply findEntry_insertEntry_self
  cases hr : w.root with
  | none => rfl
  | some es => simpa [World.entry, hr] using he

theorem removeAll_entry_self (name : String) (w : World) :
    (removeAll name w).2.entry name = none := by
  unfold removeAll World.entry
  cases w.root with
  | none => rfl
  | some es => simpa using findEntry_removeEntry_self name es

theorem removeAll_entry_ne {name n : String} (w : World) (hn : n ≠ name) :
    (removeAll name w).2.entry n = w.entry n := by
  unfold removeAll World.entry
  cases w.root with
  | none => rfl
  | some es => simpa using findEntry_removeEntry_ne es hn

theorem loadMetadata_none {cfg : Config} {w : World} {name : String}
    {m : InstanceMetadata} (he : w.entry name = none) :
    kvmClient.loadMetadata cfg name w ≠ .ok m := by
  intro h
  obtain ⟨d, _, hd, _, _⟩ := loadMetadata_ok_entry h
  rw [he] at hd
  cases hd

theorem loadMetadata_emptyDir {cfg : Config} {w : World} {name : String}
    {m : InstanceMetadata} {disk : Bool} (he : w.entry name = some (Entry.dir ⟨none, disk⟩)) :
    kvmClient.loadMetadata cfg name w ≠ .ok m := by
  intro h
  obtain ⟨d, _, hd, hdata, _⟩ := loadMetadata_ok_entry h
  rw [he] at hd
  cases hd
  cases hdata

theorem mkdirAll_step (cfg : Config) (name : String) (w : World) :
    PidStep cfg w (mkdirAll cfg name w).2 := by
  cases he : w.entry name with
  | some e =>
    have : (mkdirAll cfg name w).2 = w := by
      unfold mkdirAll
      cases e <;> simp [he]
    rw [this]
    exact PidStep.refl cfg w
  | none =>
    intro n m h
    by_cases hn : n = name
    · subst hn
      exact absurd h (loadMetadata_emptyDir (mkdirAll_entry_new cfg he).2.1)
    · exact Or.inl (loadMetadata_congr (mkdirAll_entry_ne cfg hn) ▸ h)

theorem removeAll_step (cfg : Config) (name : String) (w : World) :
    PidStep cfg w (removeAll name w).2 := by
  intro n m h
  by_cases hn : n = name
  · subst hn
    exact absurd h (loadMetadata_none (removeAll_entry_self n w))
  · exact Or.inl (loadMetadata_congr (removeAll_entry_ne w hn) ▸ h)

/-! ## Lemmas: the operations keep the process id invariant -/

theorem validRecord_created (cfg : Config) (env : Env) (config : VMConfig) :
    validRecord (createdRecord cfg env config) = true := by
  simp only [validRecord, createdRecord, env.now_ok, Bool.true_and]
  rfl

theorem createDiskImage_ok {cfg : Config} {env : Env} {name src tgt size : String}
    {w : World} {d : InstanceDir} (he : w.entry name = some (Entry.dir d))
    (hq : env.qemuImg = true) :
    kvmClient.createDiskImage cfg env name src tgt size w =
      (none, (w.emit (Event.run cfg.QEMUImgBinary ["create", "-f", "qcow2", tgt, size])).put
        name (Entry.dir { d with disk := true })) := by
  simp [kvmClient.createDiskImage, he, hq]

theorem createDiskImage_step (cfg : Config) (env : Env) (name src tgt size : String)
    (w : World) : PidStep cfg w (kvmClient.createDiskImage cfg env name src tgt size w).2 := by
  have hemit : PidStep cfg w
      (w.emit (Event.run cfg.QEMUImgBinary ["create", "-f", "qcow2", tgt, size])) :=
    PidStep.of_entry (fun _ => rfl)
  unfold kvmClient.createDiskImage
  simp only [World.emit_entry]
  cases he : w.entry name with
  | none => exact hemit
  | some e =>
    cases e with
    | file => exact hemit
    | dir d =>
      cases hq : env.qemuImg with
      | false => simpa using hemit
      | true =>
        simp only [if_true]
        exact hemit.trans (PidStep.put_disk (by simpa using he) true)

theorem Create_ok (cfg : Config) (env : Env) (config : VMConfig) {w : World}
    {d : InstanceDir} (he : w.entry config.Name = some (Entry.dir d))
    (hq : env.qemuImg = true) :
    kvmClient.Create cfg env config w =
      (none, ((w.emit (Event.run cfg.QEMUImgBinary ["create", "-f", "qcow2",
          joinPath (instanceDirPath cfg config.Name) "disk.qcow2", config.Disk])).put
        config.Name (Entry.dir { d with disk := true })).put config.Name
          (Entry.dir ⟨some (FileData.object
            (marshalMembers (createdRecord cfg env config))), true⟩)) := by
  unfold kvmClient.Create
  simp only [createDiskImage_ok he hq, kvmClient.createCloudInitISO, ite_self]
  have he1 : ((w.emit (Event.run cfg.QEMUImgBinary ["create", "-f", "qcow2",
      joinPath (instanceDirPath cfg config.Name) "disk.qcow2", config.Disk])).put
        config.Name (Entry.dir { d with disk := true })).entry config.Name
      = some (Entry.dir { d with disk := true }) :=
    World.put_entry_self _ (by simp [he])
  exact saveMetadata_dir he1 (validRecord_created cfg env config)

theorem Create_error_step {cfg : Config} {env : Env} {config : VMConfig} {w : World}
    (h : ¬ (∃ d, w.entry config.Name = some (Entry.dir d) ∧ env.qemuImg = true)) :
    (kvmClient.Create cfg env config w).1 ≠ none ∧
    (kvmClient.Create cfg env config w).2 =
      w.emit (Event.run cfg.QEMUImgBinary ["create", "-f", "qcow2",
          joinPath (instanceDirPath cfg config.Name) "disk.qcow2", config.Disk]) := by
  unfold kvmClient.Create kvmClient.createDiskImage
  simp only [World.emit_entry]
  cases he : w.entry config.Name with
  | none => simp
  | some e =>
    cases e with
    | file => simp
    | dir d =>
      have hq : env.qemuImg = false := by
        cases hq : env.qemuImg with
        | false => rfl
        | true => exact absurd ⟨d, he, hq⟩ h
      simp [hq]

theorem Create_step (cfg : Config) (env : Env) (config : VMConfig) (w : World) :
    PidStep cfg w (kvmClient.Create cfg env config w).2 := by
  by_cases h : ∃ d, w.entry config.Name = some (Entry.dir d) ∧ env.qemuImg = true
  · obtain ⟨d, he, hq⟩ := h
    rw [Create_ok cfg env config he hq]
    have h1 : PidStep cfg w (w.emit (Event.run cfg.QEMUImgBinary ["create", "-f", "qcow2",
        joinPath (instanceDirPath cfg config.Name) "disk.qcow2", config.Disk])) :=
      PidStep.of_entry (fun _ => rfl)
    refine (h1.trans (PidStep.put_disk (by simpa using he) true)).trans ?_
    refine PidStep.put_record true ?_ (validRecord_created cfg env config) ?_
    · rw [World.put_entry_self _ (by simp [he])]; rfl
    · intro hp
      exact absurd rfl hp
  · rw [(Create_error_step h).2]
    exact PidStep.of_entry (fun _ => rfl)

theorem Stop_step (cfg : Config) (env : Env) (name : String) (force : Bool) (w : World) :
    PidStep cfg w (kvmClient.Stop cfg env name force w).2 := by
  by_cases h : ∃ m, kvmClient.loadMetadata cfg name w = .ok m ∧ m.State = StateRunning
  · obtain ⟨m, hl, hs⟩ := h
    obtain ⟨d, he, heq⟩ := Stop_running env force hl hs
    rw [heq]
    have h1 : PidStep cfg w (kvmClient.signalProcess env m.PID force w) :=
      PidStep.of_entry (fun _ => by simp)
    refine h1.trans (PidStep.put_record d.disk (by simp [he])
      (validRecord_stopped (loadMetadata_valid hl) StateStopped 0) ?_)
    intro hp
    exact absurd rfl hp
  · have := (Stop_error cfg env name force w
      (fun m hl hs => h ⟨m, hl, hs⟩)).2
    rw [this]
    exact PidStep.refl cfg w

theorem Start_step (cfg : Config) (env : Env) (name : String) (w : World) :
    PidStep cfg w (kvmClient.Start cfg env name w).2 := by
  cases hl : kvmClient.loadMetadata cfg name w with
  | error e =>
    simp only [kvmClient.Start, hl]
    exact PidStep.refl cfg w
  | ok m =>
    by_cases hs : m.State = StateRunning
    · simp only [kvmClient.Start, hl, hs, if_true]
      exact PidStep.refl cfg w
    · cases hp : env.spawn with
      | none =>
        simp only [kvmClient.Start, hl, hs, if_false, hp]
        exact PidStep.of_entry (fun _ => rfl)
      | some pid =>
        obtain ⟨d, he, heq⟩ := Start_spawned env hl hs hp
        rw [heq]
        have h1 : PidStep cfg w (w.emit (Event.start (kvmClient.buildQEMUCommand cfg m).1
            (kvmClient.buildQEMUCommand cfg m).2)) := PidStep.of_entry (fun _ => rfl)
        exact h1.trans (PidStep.put_record d.disk (by simp [he])
          (validRecord_stopped (loadMetadata_valid hl) StateRunning pid) (fun _ => rfl))

theorem Delete_step (cfg : Config) (env : Env) (name : String) (purge force : Bool)
    (w : World) : PidStep cfg w (kvmClient.Delete cfg env name purge force w).2 := by
  unfold kvmClient.Delete
  cases hl : kvmClient.loadMetadata cfg name w with
  | error e => exact PidStep.refl cfg w
  | ok m =>
    simp only
    by_cases hs : m.State = StateRunning
    · simp only [hs, if_true]
      have hstop := Stop_step cfg env name force w
      rcases hres : kvmClient.Stop cfg env name force w with ⟨r, w1⟩
      rw [hres] at hstop
      cases r with
      | some e => exact hstop
      | none => exact hstop.trans (removeAll_step cfg name w1)
    · simp only [hs, if_false]
      exact removeAll_step cfg name w

/-! ## Lemmas: waiting for the connection -/

theorem waitLoop_spec (timeout : Int) (addr : String) (dial : Nat → DialResult)
    (fuel attempt elapsed : Nat) (w : World) :
    (sshClient.waitLoop timeout addr dial fuel attempt elapsed w).2.root = w.root ∧
    ∃ ext, (sshClient.waitLoop timeout addr dial fuel attempt elapsed w).2.trace = w.trace ++ ext ∧
      ∀ e ∈ ext, e.isSignal = false ∧ e.isProcess = false := by
  induction fuel generalizing attempt elapsed w with
  | zero => exact ⟨rfl, [], by simp [sshClient.waitLoop], by simp⟩
  | succ fuel ih =>
    unfold sshClient.waitLoop
    by_cases ht : (elapsed : Int) < timeout
    · simp only [ht, if_true]
      by_cases hok : (dial attempt).ok = true
      · simp only [hok, if_true]
        refine ⟨rfl, [Event.dial addr (min (dial attempt).took (5 * second)),
          Event.sleep (2 * second)], by simp, ?_⟩
        intro e he
        simp only [List.mem_cons, List.mem_singleton, List.not_mem_nil, or_false] at he
        rcases he with rfl | rfl <;> exact ⟨rfl, rfl⟩
      · simp only [hok, Bool.false_eq_true, if_false]
        obtain ⟨hroot, ext, htr, hext⟩ := ih (attempt + 1)
          (elapsed + min (dial attempt).took (5 * second) + second)
          ((w.emit (Event.dial addr (min (dial attempt).took (5 * second)))).emit
            (Event.sleep second))
        refine ⟨hroot, Event.dial addr (min (dial attempt).took (5 * second)) ::
          Event.sleep second :: ext, by simp [htr], ?_⟩
        intro e he
        simp only [List.mem_cons] at he
        rcases he with rfl | rfl | he
        · exact ⟨rfl, rfl⟩
        · exact ⟨rfl, rfl⟩
        · exact hext e he
    · rw [if_neg ht]
      exact ⟨rfl, [], by simp, by simp⟩

theorem WaitForConnection_spec (cfg : Config) (env : Env) (name : String) (w : World) :
    (sshClient.WaitForConnection cfg env name w).2.root = w.root ∧
    ∃ ext, (sshClient.WaitForConnection cfg env name w).2.trace = w.trace ++ ext ∧
      ∀ e ∈ ext, e.isSignal = false ∧ e.isProcess = false := by
  unfold sshClient.WaitForConnection
  simp only
  have h := waitLoop_spec (cfg.SSHTimeout * second)
    ((sshClient.getInstanceAddress name).1 ++ ":" ++ toString (sshClient.getInstanceAddress name).2)
    env.dial cfg.SSHTimeout.toNat 0 0 w
  rcases hres : sshClient.waitLoop (cfg.SSHTimeout * second)
    ((sshClient.getInstanceAddress name).1 ++ ":" ++ toString (sshClient.getInstanceAddress name).2)
    env.dial cfg.SSHTimeout.toNat 0 0 w with ⟨b, w1⟩
  rw [hres] at h
  cases b <;> exact h

theorem WaitForConnection_entry (cfg : Config) (env : Env) (name n : String) (w : World) :
    (sshClient.WaitForConnection cfg env name w).2.entry n = w.entry n := by
  unfold World.entry
  rw [(WaitForConnection_spec cfg env name w).1]

/-! ## Lemmas: `Launch` -/

theorem Launch_unfold (cfg : Config) (env : Env) (config : LaunchConfig) (w : World) :
    Manager.Launch cfg env config w =
      if Manager.instanceExists w (launchName config) then
        (some (Err.msg ("instance \x27" ++ launchName config ++ "\x27 already exists")), w)
      else
        match mkdirAll cfg (launchName config)
            (w.emit (Event.print ("Launching " ++ launchName config ++ "...\n"))) with
        | (some e, w1) => (some (Err.wrap "failed to create instance directory" e), w1)
        | (none, w1) =>
          match kvmClient.Create cfg env (launchVMConfig cfg config) w1 with
          | (some e, w2) => (some (Err.wrap "failed to create VM" e), w2)
          | (none, w2) =>
            match kvmClient.Start cfg env (launchName config) w2 with
            | (some e, w3) => (some (Err.wrap "failed to start VM" e), w3)
            | (none, w3) =>
              match sshClient.WaitForConnection cfg env (launchName config)
                  (w3.emit (Event.print
                    ("Waiting for " ++ launchName config ++ " to be ready...\n"))) with
              | (some e, w5) => (some (Err.wrap "failed to establish SSH connection" e), w5)
              | (none, w5) =>
                (none, w5.emit (Event.print ("Launched: " ++ launchName config ++ "\n"))) :=
  rfl

theorem Launch_step (cfg : Config) (env : Env) (config : LaunchConfig) (w : World) :
    PidStep cfg w (Manager.Launch cfg env config w).2 := by
  rw [Launch_unfold]
  by_cases hex : Manager.instanceExists w (launchName config) = true
  · rw [if_pos hex]
    exact PidStep.refl cfg w
  rw [if_neg hex]
  have s0 : PidStep cfg w
      (w.emit (Event.print ("Launching " ++ launchName config ++ "...\n"))) :=
    PidStep.of_entry (fun _ => rfl)
  have s1 := s0.trans (mkdirAll_step cfg (launchName config)
    (w.emit (Event.print ("Launching " ++ launchName config ++ "...\n"))))
  rcases h1 : mkdirAll cfg (launchName config)
    (w.emit (Event.print ("Launching " ++ launchName config ++ "...\n"))) with ⟨r1, w1⟩
  rw [h1] at s1
  cases r1 with
  | some e => exact s1
  | none =>
    simp only
    have s2 := s1.trans (Create_step cfg env (launchVMConfig cfg config) w1)
    rcases h2 : kvmClient.Create cfg env (launchVMConfig cfg config) w1 with ⟨r2, w2⟩
    rw [h2] at s2
    cases r2 with
    | some e => exact s2
    | none =>
      simp only
      have s3 := s2.trans (Start_step cfg env (launchName config) w2)
      rcases h3 : kvmClient.Start cfg env (launchName config) w2 with ⟨r3, w3⟩
      rw [h3] at s3
      cases r3 with
      | some e => exact s3
      | none =>
        simp only
        have s4 : PidStep cfg w (sshClient.WaitForConnection cfg env (launchName config)
            (w3.emit (Event.print
              ("Waiting for " ++ launchName config ++ " to be ready...\n")))).2 :=
          s3.trans (PidStep.of_entry (fun n => by rw [WaitForConnection_entry]; rfl))
        rcases h4 : sshClient.WaitForConnection cfg env (launchName config)
          (w3.emit (Event.print
            ("Waiting for " ++ launchName config ++ " to be ready...\n"))) with ⟨r4, w5⟩
        rw [h4] at s4
        cases r4 with
        | some e => exact s4
        | none => exact s4.trans (PidStep.of_entry (fun _ => rfl))

theorem Op.run_step (cfg : Config) (env : Env) (op : Op) (w : World) :
    PidStep cfg w (op.run cfg env w).2 := by
  cases op with
  | launch config => exact Launch_step cfg env config w
  | create config => exact Create_step cfg env config w
  | start name => exact Start_step cfg env name w
  | stop name force => exact Stop_step cfg env name force w
  | delete name purge force => exact Delete_step cfg env name purge force w

theorem runOps_step (cfg : Config) (ops : List (Env × Op)) (w : World) :
    PidStep cfg w (runOps cfg ops w) := by
  induction ops generalizing w with
  | nil => exact PidStep.refl cfg w
  | cons p rest ih =>
    obtain ⟨env, op⟩ := p
    exact (Op.run_step cfg env op w).trans (ih _)

theorem PidInvariant.step {cfg : Config} {w w1 : World} (h : PidInvariant cfg w)
    (hs : PidStep cfg w w1) : PidInvariant cfg w1 := by
  intro name m hl hp
  rcases hs name m hl with h1 | h1
  · exact h name m h1 hp
  · exact h1 hp

theorem PidInvariant.empty (cfg : Config) : PidInvariant cfg emptyWorld := by
  intro name m hl
  exact absurd hl (loadMetadata_none rfl)

/-! ## Lemmas: the batch commands -/

@[simp] theorem NewManager_entry (w : World) (name : String) :
    (NewManager w).entry name = w.entry name := by
  unfold NewManager World.entry
  cases w.root <;> rfl

@[simp] theorem NewManager_trace (w : World) : (NewManager w).trace = w.trace := rfl

theorem stopCmd_loop_abort {cfg : Config} {envs : Nat → Env} {force : Bool} {a b : String}
    {rest : List String} {i : Nat} {w w1 w2 : World} {e : Err}
    (ha : Manager.Stop cfg (envs i) a force w = (none, w1))
    (hb : Manager.Stop cfg (envs (i + 1)) b force
      (w1.emit (Event.print ("Stopped: " ++ a ++ "\n"))) = (some e, w2)) :
    stopCmd.loop cfg envs force (a :: b :: rest) i w =
      (some (Err.wrap ("failed to stop " ++ b) e), w2) := by
  simp only [stopCmd.loop, ha, hb]

theorem startCmd_loop_abort {cfg : Config} {envs : Nat → Env} {a b : String}
    {rest : List String} {i : Nat} {w w1 w2 : World} {e : Err}
    (ha : Manager.Start cfg (envs i) a w = (none, w1))
    (hb : Manager.Start cfg (envs (i + 1)) b
      (w1.emit (Event.print ("Started: " ++ a ++ "\n"))) = (some e, w2)) :
    startCmd.loop cfg envs (a :: b :: rest) i w =
      (some (Err.wrap ("failed to start " ++ b) e), w2) := by
  simp only [startCmd.loop, ha, hb]

theorem deleteCmd_loop_abort {cfg : Config} {envs : Nat → Env} {purge force : Bool}
    {a b : String} {rest : List String} {i : Nat} {w w1 w2 : World} {e : Err}
    (ha : Manager.Delete cfg (envs i) a purge force w = (none, w1))
    (hb : Manager.Delete cfg (envs (i + 1)) b purge force
      (w1.emit (Event.print ("Deleted: " ++ a ++ "\n"))) = (some e, w2)) :
    deleteCmd.loop cfg envs purge force (a :: b :: rest) i w =
      (some (Err.wrap ("failed to delete " ++ b) e), w2) := by
  simp only [deleteCmd.loop, ha, hb]

/-! ## Lemmas: `Delete` -/

theorem loadMetadata_absent {cfg : Config} {w : World} {name : String}
    (he : w.entry name = none) :
    kvmClient.loadMetadata cfg name w = .error (Err.notExist (metadataPath cfg name)) := by
  simp [kvmClient.loadMetadata, readMetadataFile, he]

theorem Delete_ok {cfg : Config} {env : Env} {name : String} {purge force : Bool}
    {w : World} {m : InstanceMetadata} (hl : kvmClient.loadMetadata cfg name w = .ok m) :
    kvmClient.Delete cfg env name purge force w =
      (none, (removeAll name
        (if m.State = StateRunning then (kvmClient.Stop cfg env name force w).2 else w)).2) := by
  unfold kvmClient.Delete
  simp only [hl]
  by_cases hs : m.State = StateRunning
  · obtain ⟨d, _, heq⟩ := Stop_running env force hl hs
    simp only [hs, if_true, heq]
    rfl
  · simp only [hs, if_false]
    rfl

/-! ## Lemmas: a launch that gets as far as the started process -/

theorem StateStopped_ne_Running : StateStopped ≠ StateRunning := by decide

theorem waitLoop_fst (timeout : Int) (addr : String) (dial : Nat → DialResult)
    (fuel attempt elapsed : Nat) (w w1 : World) :
    (sshClient.waitLoop timeout addr dial fuel attempt elapsed w).1 =
      (sshClient.waitLoop timeout addr dial fuel attempt elapsed w1).1 := by
  induction fuel generalizing attempt elapsed w w1 with
  | zero => rfl
  | succ fuel ih =>
    unfold sshClient.waitLoop
    by_cases ht : (elapsed : Int) < timeout
    · rw [if_pos ht, if_pos ht]
      by_cases hok : (dial attempt).ok = true
      · simp only [hok, if_true]
      · simp only [hok, Bool.false_eq_true, if_false]
        exact ih _ _ _ _
    · rw [if_neg ht, if_neg ht]

theorem WaitForConnection_fst (cfg : Config) (env : Env) (name : String) (w w1 : World) :
    (sshClient.WaitForConnection cfg env name w).1 =
      (sshClient.WaitForConnection cfg env name w1).1 := by
  unfold sshClient.WaitForConnection
  simp only
  have h := waitLoop_fst (cfg.SSHTimeout * second)
    ((sshClient.getInstanceAddress name).1 ++ ":" ++ toString (sshClient.getInstanceAddress name).2)
    env.dial cfg.SSHTimeout.toNat 0 0 w w1
  rcases h1 : sshClient.waitLoop (cfg.SSHTimeout * second)
    ((sshClient.getInstanceAddress name).1 ++ ":" ++ toString (sshClient.getInstanceAddress name).2)
    env.dial cfg.SSHTimeout.toNat 0 0 w with ⟨b, v⟩
  rcases h2 : sshClient.waitLoop (cfg.SSHTimeout * second)
    ((sshClient.getInstanceAddress name).1 ++ ":" ++ toString (sshClient.getInstanceAddress name).2)
    env.dial cfg.SSHTimeout.toNat 0 0 w1 with ⟨b1, v1⟩
  rw [h1, h2] at h
  simp only at h
  subst h
  cases b <;> rfl

/-- The world `Launch` has reached when the process is started, for a name that did not
exist, a disk that was created and a spawn that gave `pid`: the record is stored as running
with `pid`, no other entry is touched, and `qemu-img` and the hypervisor were run. -/
theorem Launch_started (cfg : Config) {env : Env} (config : LaunchConfig) {w : World}
    {pid : Int} (he : w.entry (launchName config) = none) (hq : env.qemuImg = true)
    (hp : env.spawn = some pid) :
    ∃ w3 : World,
      Manager.Launch cfg env config w =
        (match sshClient.WaitForConnection cfg env (launchName config)
            (w3.emit (Event.print
              ("Waiting for " ++ launchName config ++ " to be ready...\n"))) with
        | (some e, w5) => (some (Err.wrap "failed to establish SSH connection" e), w5)
        | (none, w5) =>
          (none, w5.emit (Event.print ("Launched: " ++ launchName config ++ "\n")))) ∧
      w3.entry (launchName config) = some (Entry.dir
        ⟨some (FileData.object (marshalMembers (launchedRecord cfg env config pid))), true⟩) ∧
      (∀ n, n ≠ launchName config → w3.entry n = w.entry n) ∧
      w3.trace = w.trace ++
        [Event.print ("Launching " ++ launchName config ++ "...\n"),
         Event.run cfg.QEMUImgBinary ["create", "-f", "qcow2",
           joinPath (instanceDirPath cfg (launchName config)) "disk.qcow2", config.Disk],
         Event.start (kvmClient.buildQEMUCommand cfg
             (createdRecord cfg env (launchVMConfig cfg config))).1
           (kvmClient.buildQEMUCommand cfg
             (createdRecord cfg env (launchVMConfig cfg config))).2] := by
  have hex : ¬ Manager.instanceExists w (launchName config) = true := by
    simp [Manager.instanceExists, statOk, he]
  have he0 : (w.emit (Event.print ("Launching " ++ launchName config ++ "...\n"))).entry
      (launchName config) = none := he
  obtain ⟨hm1, hm2, hm3⟩ := mkdirAll_entry_new cfg he0
  rcases hmk : mkdirAll cfg (launchName config)
    (w.emit (Event.print ("Launching " ++ launchName config ++ "...\n"))) with ⟨r1, w1⟩
  rw [hmk] at hm1 hm2 hm3
  simp only at hm1 hm2 hm3
  subst hm1
  have hfr1 : ∀ n, n ≠ launchName config → w1.entry n = w.entry n := by
    intro n hn
    have := mkdirAll_entry_ne cfg
      (w := w.emit (Event.print ("Launching " ++ launchName config ++ "...\n"))) hn
    rw [hmk] at this
    exact this
  have hcreate : kvmClient.Create cfg env (launchVMConfig cfg config) w1 =
      (none, ((w1.emit (Event.run cfg.QEMUImgBinary ["create", "-f", "qcow2",
          joinPath (instanceDirPath cfg (launchName config)) "disk.qcow2", config.Disk])).put
        (launchName config) (Entry.dir ⟨none, true⟩)).put (launchName config)
          (Entry.dir ⟨some (FileData.object
            (marshalMembers (createdRecord cfg env (launchVMConfig cfg config)))), true⟩)) :=
    Create_ok cfg env (launchVMConfig cfg config) (w := w1) hm2 hq
  have hsome1 : (w1.entry (launchName config)).isSome = true := by rw [hm2]; rfl
  have hsome2 : (((w1.emit (Event.run cfg.QEMUImgBinary ["create", "-f", "qcow2",
      joinPath (instanceDirPath cfg (launchName config)) "disk.qcow2", config.Disk])).put
      (launchName config) (Entry.dir ⟨none, true⟩)).entry (launchName config)).isSome = true := by
    rw [World.put_entry_self _ (by simpa using hsome1)]; rfl
  have hload2 := loadMetadata_put cfg true hsome2
    (validRecord_created cfg env (launchVMConfig cfg config))
  obtain ⟨d, hd, hstart⟩ := Start_spawned env hload2
    (by exact StateStopped_ne_Running) hp
  have hd2 := World.put_entry_self (Entry.dir ⟨some (FileData.object
    (marshalMembers (createdRecord cfg env (launchVMConfig cfg config)))), true⟩) hsome2
  rw [hd2] at hd
  cases hd
  refine ⟨(kvmClient.Start cfg env (launchName config)
    (kvmClient.Create cfg env (launchVMConfig cfg config) w1).2).2, ?_, ?_, ?_, ?_⟩
  · rw [Launch_unfold, if_neg hex, hmk]
    simp only
    rw [hcreate]
    simp only
    rw [hstart]
  · rw [hcreate]
    simp only
    rw [hstart]
    refine World.put_entry_self _ ?_
    rw [World.emit_entry, hd2]
    rfl
  · intro n hn
    rw [hcreate]
    simp only
    rw [hstart]
    simp only
    rw [World.put_entry_ne _ hn, World.emit_entry, World.put_entry_ne _ hn,
      World.put_entry_ne _ hn, World.emit_entry]
    exact hfr1 n hn
  · rw [hcreate]
    simp only
    rw [hstart]
    simp [hm3]

/-- What a launch leaves behind once the process is started, whatever the wait for the
connection gives: the error is that of the wait, the record is stored as running with
`pid`, no other entry is touched and no signal is sent. -/
theorem Launch_outcome (cfg : Config) {env : Env} (config : LaunchConfig) {w : World}
    {pid : Int} (he : w.entry (launchName config) = none) (hq : env.qemuImg = true)
    (hp : env.spawn = some pid) :
    (Manager.Launch cfg env config w).1 =
      (sshClient.WaitForConnection cfg env (launchName config) w).1.map
        (Err.wrap "failed to establish SSH connection") ∧
    (Manager.Launch cfg env config w).2.entry (launchName config) = some (Entry.dir
      ⟨some (FileData.object (marshalMembers (launchedRecord cfg env config pid))), true⟩) ∧
    (∀ n, n ≠ launchName config → (Manager.Launch cfg env config w).2.entry n = w.entry n) ∧
    ∃ ext, (Manager.Launch cfg env config w).2.trace = w.trace ++ ext ∧
      ∀ e ∈ ext, e.isSignal = false := by
  obtain ⟨w3, hL, hent, hfr, htr⟩ := Launch_started cfg config he hq hp
  have hfst := WaitForConnection_fst cfg env (launchName config)
    (w3.emit (Event.print ("Waiting for " ++ launchName config ++ " to be ready...\n"))) w
  obtain ⟨hroot, ext, hext, hsig⟩ := WaitForConnection_spec cfg env (launchName config)
    (w3.emit (Event.print ("Waiting for " ++ launchName config ++ " to be ready...\n")))
  rcases hw : sshClient.WaitForConnection cfg env (launchName config)
    (w3.emit (Event.print ("Waiting for " ++ launchName config ++ " to be ready...\n")))
    with ⟨r, w5⟩
  rw [hw] at hL hfst hroot hext
  simp only at hL hfst hroot hext
  have hentry : ∀ k, w5.entry k = w3.entry k := by
    intro k
    unfold World.entry
    rw [hroot]
    rfl
  have hsig0 : ∀ e ∈ [Event.print ("Launching " ++ launchName config ++ "...\n"),
      Event.run cfg.QEMUImgBinary ["create", "-f", "qcow2",
        joinPath (instanceDirPath cfg (launchName config)) "disk.qcow2", config.Disk],
      Event.start (kvmClient.buildQEMUCommand cfg
          (createdRecord cfg env (launchVMConfig cfg config))).1
        (kvmClient.buildQEMUCommand cfg
          (createdRecord cfg env (launchVMConfig cfg config))).2,
      Event.print ("Waiting for " ++ launchName config ++ " to be ready...\n")],
      e.isSignal = false := by
    intro e hmem
    simp only [List.mem_cons, List.mem_singleton, List.not_mem_nil, or_false] at hmem
    rcases hmem with rfl | rfl | rfl | rfl <;> rfl
  have hpre : w5.trace = w.trace ++
      ([Event.print ("Launching " ++ launchName config ++ "...\n"),
        Event.run cfg.QEMUImgBinary ["create", "-f", "qcow2",
          joinPath (instanceDirPath cfg (launchName config)) "disk.qcow2", config.Disk],
        Event.start (kvmClient.buildQEMUCommand cfg
            (createdRecord cfg env (launchVMConfig cfg config))).1
          (kvmClient.buildQEMUCommand cfg
            (createdRecord cfg env (launchVMConfig cfg config))).2,
        Event.print ("Waiting for " ++ launchName config ++ " to be ready...\n")] ++ ext) := by
    rw [hext, World.emit_trace, htr]
    simp only [List.append_assoc, List.cons_append, List.nil_append]
  have hsig1 : ∀ e ∈ [Event.print ("Launching " ++ launchName config ++ "...\n"),
        Event.run cfg.QEMUImgBinary ["create", "-f", "qcow2",
          joinPath (instanceDirPath cfg (launchName config)) "disk.qcow2", config.Disk],
        Event.start (kvmClient.buildQEMUCommand cfg
            (createdRecord cfg env (launchVMConfig cfg config))).1
          (kvmClient.buildQEMUCommand cfg
            (createdRecord cfg env (launchVMConfig cfg config))).2,
        Event.print ("Waiting for " ++ launchName config ++ " to be ready...\n")] ++ ext,
      e.isSignal = false := by
    intro e1 h1
    rcases List.mem_append.mp h1 with h1 | h1
    · exact hsig0 e1 h1
    · exact (hsig e1 h1).1
  rw [hL, ← hfst]
  cases r with
  | some e =>
    exact ⟨rfl, (hentry _).trans hent, fun n hn => (hentry n).trans (hfr n hn),
      _, hpre, hsig1⟩
  | none =>
    refine ⟨rfl, (hentry _).trans hent, fun n hn => (hentry n).trans (hfr n hn),
      ([Event.print ("Launching " ++ launchName config ++ "...\n"),
        Event.run cfg.QEMUImgBinary ["create", "-f", "qcow2",
          joinPath (instanceDirPath cfg (launchName config)) "disk.qcow2", config.Disk],
        Event.start (kvmClient.buildQEMUCommand cfg
            (createdRecord cfg env (launchVMConfig cfg config))).1
          (kvmClient.buildQEMUCommand cfg
            (createdRecord cfg env (launchVMConfig cfg config))).2,
        Event.print ("Waiting for " ++ launchName config ++ " to be ready...\n")] ++ ext)
        ++ [Event.print ("Launched: " ++ launchName config ++ "\n")], ?_, ?_⟩
    · simp only [World.emit_trace, hpre, List.append_assoc]
    · intro e1 h1
      rcases List.mem_append.mp h1 with h1 | h1
      · exact hsig1 e1 h1
      · simp only [List.mem_singleton] at h1
        subst h1
        rfl

theorem List_mem_of_entry {cfg : Config} {w : World} {name : String} {d : InstanceDir}
    {data : FileData} {m : InstanceMetadata} (he : w.entry name = some (Entry.dir d))
    (hd : d.metadata = some data) (hu : jsonUnmarshal data = .ok m) :
    instanceOf m ∈ (kvmClient.List cfg w).1 := by
  obtain ⟨es, hroot, hmem⟩ := World.entry_mem he
  unfold kvmClient.List
  simp only [hroot]
  refine List.mem_filterMap.mpr ⟨(name, Entry.dir d), hmem, ?_⟩
  simp only [listEntry, loadMetadata_of_entry he hd, hu]

theorem List_mem_inv {cfg : Config} {w : World} {inst : Instance}
    (h : inst ∈ (kvmClient.List cfg w).1) :
    ∃ n m, (w.entry n).isSome = true ∧ kvmClient.loadMetadata cfg n w = .ok m ∧
      inst = instanceOf m := by
  unfold kvmClient.List at h
  cases hroot : w.root with
  | none => simp [hroot] at h
  | some es =>
    simp only [hroot] at h
    obtain ⟨p, _, hp⟩ := List.mem_filterMap.mp h
    obtain ⟨n, e⟩ := p
    cases e with
    | file => simp [listEntry] at hp
    | dir d =>
      simp only [listEntry] at hp
      cases hl : kvmClient.loadMetadata cfg n w with
      | error e => simp [hl] at hp
      | ok m =>
        simp only [hl, Option.some.injEq] at hp
        obtain ⟨d1, _, he1, _, _⟩ := loadMetadata_ok_entry hl
        exact ⟨n, m, by rw [he1]; rfl, hl, hp.symm⟩

theorem List_no_error (cfg : Config) (w : World) : (kvmClient.List cfg w).2 = none := by
  unfold kvmClient.List
  cases w.root <;> rfl

theorem WaitForConnection_error {cfg : Config} {env : Env} {name : String} {w : World}
    (h : (sshClient.WaitForConnection cfg env name w).1 ≠ none) :
    (sshClient.WaitForConnection cfg env name w).1
      = some (Err.msg ("timeout waiting for SSH connection to " ++ name)) := by
  unfold sshClient.WaitForConnection at h ⊢
  simp only at h ⊢
  rcases hres : sshClient.waitLoop (cfg.SSHTimeout * second)
    ((sshClient.getInstanceAddress name).1 ++ ":" ++ toString (sshClient.getInstanceAddress name).2)
    env.dial cfg.SSHTimeout.toNat 0 0 w with ⟨b, w1⟩
  rw [hres] at h
  cases b with
  | true => exact absurd rfl h
  | false => rfl

theorem signalProcess_kill {env : Env} {pid : Int} (w : World) (hp : 0 < pid)
    (hf : env.findProcess = true) :
    kvmClient.signalProcess env pid true w = w.emit (Event.kill pid) := by
  simp [kvmClient.signalProcess, hp, hf]

/-! ## Lemmas: the wait loop never runs out of passes -/

/-- More passes than the timeout has seconds change nothing: the loop of `WaitForConnection`
ends by its own condition. -/
theorem waitLoop_fuel (timeout : Int) (addr : String) (dial : Nat → DialResult)
    (fuel k attempt elapsed : Nat) (w : World)
    (h : timeout ≤ ((elapsed + fuel * second : Nat) : Int)) :
    sshClient.waitLoop timeout addr dial (fuel + k) attempt elapsed w =
      sshClient.waitLoop timeout addr dial fuel attempt elapsed w := by
  induction fuel generalizing attempt elapsed w with
  | zero =>
    have hnot : ¬ (elapsed : Int) < timeout := by
      simp only [Nat.zero_mul, Nat.add_zero] at h
      omega
    cases k with
    | zero => rfl
    | succ k =>
      rw [Nat.zero_add]
      unfold sshClient.waitLoop
      rw [if_neg hnot]
  | succ fuel ih =>
    rw [Nat.add_right_comm]
    unfold sshClient.waitLoop
    by_cases ht : (elapsed : Int) < timeout
    · rw [if_pos ht, if_pos ht]
      by_cases hok : (dial attempt).ok = true
      · simp only [hok, if_true]
      · simp only [hok, Bool.false_eq_true, if_false]
        apply ih
        have hle : elapsed + (fuel + 1) * second ≤
            elapsed + min (dial attempt).took (5 * second) + second + fuel * second := by
          rw [Nat.succ_mul]
          omega
        exact le_trans h (by exact_mod_cast hle)
    · rw [if_neg ht, if_neg ht]

theorem WaitForConnection_fuel (cfg : Config) (env : Env) (addr : String) (k : Nat)
    (w : World) :
    sshClient.waitLoop (cfg.SSHTimeout * second) addr env.dial (cfg.SSHTimeout.toNat + k) 0 0 w =
      sshClient.waitLoop (cfg.SSHTimeout * second) addr env.dial cfg.SSHTimeout.toNat 0 0 w := by
  apply waitLoop_fuel
  have h1 : cfg.SSHTimeout ≤ (cfg.SSHTimeout.toNat : Int) := Int.self_le_toNat _
  have h2 : (0 : Int) ≤ (second : Int) := Int.ofNat_nonneg _
  push_cast
  rw [zero_add]
  exact mul_le_mul_of_nonneg_right h1 h2

/-! ## Lemmas: records stay under their own names -/

theorem keyed_of_entry {cfg : Config} {w w1 : World}
    (h : ∀ name, w1.entry name = w.entry name) (hk : WellKeyed cfg w) : WellKeyed cfg w1 :=
  fun name m hl => hk name m (loadMetadata_congr (h name) ▸ hl)

theorem keyed_of_step {cfg : Config} {w w1 : World}
    (h : ∀ name m, kvmClient.loadMetadata cfg name w1 = .ok m →
      kvmClient.loadMetadata cfg name w = .ok m ∨ m.Name = name)
    (hk : WellKeyed cfg w) : WellKeyed cfg w1 := by
  intro name m hl
  rcases h name m hl with h1 | h1
  · exact hk name m h1
  · exact h1

theorem keyed_put_record {cfg : Config} {w : World} {name : String}
    {r : InstanceMetadata} (disk : Bool) (he : (w.entry name).isSome = true)
    (hv : validRecord r = true) (hr : r.Name = name) (hk : WellKeyed cfg w) :
    WellKeyed cfg (w.put name (Entry.dir ⟨some (FileData.object (marshalMembers r)), disk⟩)) := by
  refine keyed_of_step ?_ hk
  intro n m h
  by_cases hn : n = name
  · subst hn
    rw [loadMetadata_put cfg disk he hv] at h
    cases h
    exact Or.inr hr
  · exact Or.inl (loadMetadata_congr (World.put_entry_ne _ hn) ▸ h)

theorem keyed_of_subset {cfg : Config} {w w1 : World}
    (h : ∀ name m, kvmClient.loadMetadata cfg name w1 = .ok m →
      kvmClient.loadMetadata cfg name w = .ok m)
    (hk : WellKeyed cfg w) : WellKeyed cfg w1 :=
  keyed_of_step (fun name m hl => Or.inl (h name m hl)) hk

theorem mkdirAll_keyed (cfg : Config) (name : String) (w : World) (hk : WellKeyed cfg w) :
    WellKeyed cfg (mkdirAll cfg name w).2 := by
  cases he : w.entry name with
  | some e =>
    have : (mkdirAll cfg name w).2 = w := by
      unfold mkdirAll
      cases e <;> simp [he]
    rw [this]
    exact hk
  | none =>
    refine keyed_of_subset ?_ hk
    intro n m h
    by_cases hn : n = name
    · subst hn
      exact absurd h (loadMetadata_emptyDir (mkdirAll_entry_new cfg he).2.1)
    · exact loadMetadata_congr (mkdirAll_entry_ne cfg hn) ▸ h

theorem removeAll_keyed (cfg : Config) (name : String) (w : World) (hk : WellKeyed cfg w) :
    WellKeyed cfg (removeAll name w).2 := by
  refine keyed_of_subset ?_ hk
  intro n m h
  by_cases hn : n = name
  · subst hn
    exact absurd h (loadMetadata_none (removeAll_entry_self n w))
  · exact loadMetadata_congr (removeAll_entry_ne w hn) ▸ h

theorem put_disk_keyed (cfg : Config) {w : World} {name : String} {d : InstanceDir}
    (he : w.entry name = some (Entry.dir d)) (disk : Bool) (hk : WellKeyed cfg w) :
    WellKeyed cfg (w.put name (Entry.dir { d with disk := disk })) := by
  refine keyed_of_step ?_ hk
  intro n m h
  exact (PidStep.put_disk he disk n m h).elim Or.inl (fun _ => by
    by_cases hn : n = name
    · subst hn
      have hsome : (w.entry n).isSome = true := by rw [he]; rfl
      have h1 := World.put_entry_self (Entry.dir { d with disk := disk }) hsome
      obtain ⟨d1, data, hd1, hdata, hu⟩ := loadMetadata_ok_entry h
      rw [h1] at hd1
      cases hd1
      left
      rw [loadMetadata_of_entry he hdata]
      exact hu
    · exact Or.inl (loadMetadata_congr (World.put_entry_ne _ hn) ▸ h))

theorem Create_keyed (cfg : Config) (env : Env) (config : VMConfig) (w : World)
    (hk : WellKeyed cfg w) : WellKeyed cfg (kvmClient.Create cfg env config w).2 := by
  by_cases h : ∃ d, w.entry config.Name = some (Entry.dir d) ∧ env.qemuImg = true
  · obtain ⟨d, he, hq⟩ := h
    rw [Create_ok cfg env config he hq]
    have h1 : WellKeyed cfg (w.emit (Event.run cfg.QEMUImgBinary ["create", "-f", "qcow2",
        joinPath (instanceDirPath cfg config.Name) "disk.qcow2", config.Disk])) :=
      keyed_of_entry (fun _ => rfl) hk
    have h2 := put_disk_keyed cfg (w := w.emit (Event.run cfg.QEMUImgBinary
      ["create", "-f", "qcow2", joinPath (instanceDirPath cfg config.Name) "disk.qcow2",
        config.Disk])) (by simpa using he) true h1
    refine keyed_put_record true ?_ (validRecord_created cfg env config) rfl h2
    rw [World.put_entry_self _ (by simp [he])]
    rfl
  · rw [(Create_error_step h).2]
    exact keyed_of_entry (fun _ => rfl) hk

theorem Stop_keyed (cfg : Config) (env : Env) (name : String) (force : Bool) (w : World)
    (hk : WellKeyed cfg w) : WellKeyed cfg (kvmClient.Stop cfg env name force w).2 := by
  by_cases h : ∃ m, kvmClient.loadMetadata cfg name w = .ok m ∧ m.State = StateRunning
  · obtain ⟨m, hl, hs⟩ := h
    obtain ⟨d, he, heq⟩ := Stop_running env force hl hs
    rw [heq]
    have h1 : WellKeyed cfg (kvmClient.signalProcess env m.PID force w) :=
      keyed_of_entry (fun _ => by simp) hk
    exact keyed_put_record d.disk (by simp [he])
      (validRecord_stopped (loadMetadata_valid hl) StateStopped 0) (hk name m hl) h1
  · have := (Stop_error cfg env name force w (fun m hl hs => h ⟨m, hl, hs⟩)).2
    rw [this]
    exact hk

theorem Start_keyed (cfg : Config) (env : Env) (name : String) (w : World)
    (hk : WellKeyed cfg w) : WellKeyed cfg (kvmClient.Start cfg env name w).2 := by
  cases hl : kvmClient.loadMetadata cfg name w with
  | error e =>
    simp only [kvmClient.Start, hl]
    exact hk
  | ok m =>
    by_cases hs : m.State = StateRunning
    · simp only [kvmClient.Start, hl, hs, if_true]
      exact hk
    · cases hp : env.spawn with
      | none =>
        simp only [kvmClient.Start, hl, hs, if_false, hp]
        exact keyed_of_entry (fun _ => rfl) hk
      | some pid =>
        obtain ⟨d, he, heq⟩ := Start_spawned env hl hs hp
        rw [heq]
        have h1 : WellKeyed cfg (w.emit (Event.start (kvmClient.buildQEMUCommand cfg m).1
            (kvmClient.buildQEMUCommand cfg m).2)) := keyed_of_entry (fun _ => rfl) hk
        exact keyed_put_record d.disk (by simp [he])
          (validRecord_stopped (loadMetadata_valid hl) StateRunning pid) (hk name m hl) h1

theorem Delete_keyed (cfg : Config) (env : Env) (name : String) (purge force : Bool)
    (w : World) (hk : WellKeyed cfg w) :
    WellKeyed cfg (kvmClient.Delete cfg env name purge force w).2 := by
  cases hl : kvmClient.loadMetadata cfg name w with
  | error e =>
    simp only [kvmClient.Delete, hl]
    exact hk
  | ok m =>
    rw [Delete_ok hl]
    by_cases hs : m.State = StateRunning
    · rw [if_pos hs]
      exact removeAll_keyed cfg name _ (Stop_keyed cfg env name force w hk)
    · rw [if_neg hs]
      exact removeAll_keyed cfg name w hk

theorem Launch_keyed (cfg : Config) (env : Env) (config : LaunchConfig) (w : World)
    (hk : WellKeyed cfg w) : WellKeyed cfg (Manager.Launch cfg env config w).2 := by
  rw [Launch_unfold]
  by_cases hex : Manager.instanceExists w (launchName config) = true
  · rw [if_pos hex]
    exact hk
  rw [if_neg hex]
  have s0 : WellKeyed cfg
      (w.emit (Event.print ("Launching " ++ launchName config ++ "...\n"))) :=
    keyed_of_entry (fun _ => rfl) hk
  have s1 := mkdirAll_keyed cfg (launchName config) _ s0
  rcases h1 : mkdirAll cfg (launchName config)
    (w.emit (Event.print ("Launching " ++ launchName config ++ "...\n"))) with ⟨r1, w1⟩
  rw [h1] at s1
  cases r1 with
  | some e => exact s1
  | none =>
    simp only
    have s2 := Create_keyed cfg env (launchVMConfig cfg config) w1 s1
    rcases h2 : kvmClient.Create cfg env (launchVMConfig cfg config) w1 with ⟨r2, w2⟩
    rw [h2] at s2
    cases r2 with
    | some e => exact s2
    | none =>
      simp only
      have s3 := Start_keyed cfg env (launchName config) w2 s2
      rcases h3 : kvmClient.Start cfg env (launchName config) w2 with ⟨r3, w3⟩
      rw [h3] at s3
      cases r3 with
      | some e => exact s3
      | none =>
        simp only
        have s4 : WellKeyed cfg (sshClient.WaitForConnection cfg env (launchName config)
            (w3.emit (Event.print
              ("Waiting for " ++ launchName config ++ " to be ready...\n")))).2 :=
          keyed_of_entry (fun n => by rw [WaitForConnection_entry]; rfl) s3
        rcases h4 : sshClient.WaitForConnection cfg env (launchName config)
          (w3.emit (Event.print
            ("Waiting for " ++ launchName config ++ " to be ready...\n"))) with ⟨r4, w5⟩
        rw [h4] at s4
        cases r4 with
        | some e => exact s4
        | none => exact keyed_of_entry (fun _ => rfl) s4

/-- Every store the operations build from an empty one keeps each record under its own
name. -/
theorem runOps_keyed (cfg : Config) (ops : List (Env × Op)) (w : World)
    (hk : WellKeyed cfg w) : WellKeyed cfg (runOps cfg ops w) := by
  induction ops generalizing w with
  | nil => exact hk
  | cons p rest ih =>
    obtain ⟨env, op⟩ := p
    refine ih _ ?_
    cases op with
    | launch config => exact Launch_keyed cfg env config w hk
    | create config => exact Create_keyed cfg env config w hk
    | start name => exact Start_keyed cfg env name w hk
    | stop name force => exact Stop_keyed cfg env name force w hk
    | delete name purge force => exact Delete_keyed cfg env name purge force w hk

theorem emptyWorld_keyed (cfg : Config) : WellKeyed cfg emptyWorld :=
  fun _ _ hl => absurd hl (loadMetadata_none rfl)

/-! ## Lemmas: the listing -/

theorem findEntry_of_mem_nodup {name : String} {e : Entry} {es : List (String × Entry)}
    (hu : (es.map Prod.fst).Nodup) (h : (name, e) ∈ es) : findEntry name es = some e := by
  induction es with
  | nil => cases h
  | cons p rest ih =>
    obtain ⟨n, x⟩ := p
    simp only [List.map_cons, List.nodup_cons] at hu
    rcases List.mem_cons.mp h with h1 | h1
    · cases h1
      simp only [findEntry, if_true]
    · have hn : ¬ n = name := by
        intro hh
        apply hu.1
        rw [hh]
        exact List.mem_map_of_mem Prod.fst h1
      simp only [findEntry, if_neg hn]
      exact ih hu.2 h1

theorem listEntry_eq_summaryOf {cfg : Config} {w : World} {es : List (String × Entry)}
    {p : String × Entry} (hroot : w.root = some es) (hu : (es.map Prod.fst).Nodup)
    (hp : p ∈ es) : listEntry cfg w p = summaryOf p := by
  obtain ⟨n, e⟩ := p
  have he : w.entry n = some e := by
    simp only [World.entry, hroot]
    exact findEntry_of_mem_nodup hu hp
  cases e with
  | file => rfl
  | dir d =>
    simp only [listEntry, summaryOf, kvmClient.loadMetadata, readMetadataFile, he]
    cases d.metadata with
    | none => rfl
    | some data => cases jsonUnmarshal data <;> rfl

theorem filterMap_eq_of_mem {α β : Type} (f g : α → Option β) (l : List α)
    (h : ∀ x ∈ l, f x = g x) : l.filterMap f = l.filterMap g := by
  induction l with
  | nil => rfl
  | cons a rest ih =>
    have ha := h a (List.mem_cons_self _ _)
    have hr := ih (fun x hx => h x (List.mem_cons_of_mem _ hx))
    simp only [List.filterMap_cons, ha, hr]

/-! ## Lemmas: the shell -/

theorem Manager_List_eq (cfg : Config) (w : World) :
    Manager.List cfg w = ((Manager.List cfg w).1, none) := by
  have h : (Manager.List cfg w).2 = none := List_no_error cfg w
  rcases hL : Manager.List cfg w with ⟨l, e⟩
  rw [hL] at h
  simp only at h
  rw [h]

theorem shellName_empty (cfg : Config) (w : World) :
    Manager.shellName cfg "" w =
      match runningOf cfg w with
      | [] => .error (Err.msg "no running instances found")
      | [inst] => .ok inst.Name
      | _ :: _ :: _ => .error (Err.msg "multiple instances running, please specify name") := by
  unfold Manager.shellName runningOf
  rw [if_pos rfl, Manager_List_eq cfg w]

theorem sshClient_Shell_eq (cfg : Config) (exit : Option Err) (name : String) (w : World) :
    sshClient.Shell cfg exit name w = (exit, w.emit (sessionEvent cfg name)) := rfl

/-! ## Lemmas: what a successful operation has met -/

theorem Create_success {cfg : Config} {env : Env} {config : VMConfig} {w : World}
    (h : (kvmClient.Create cfg env config w).1 = none) :
    ∃ d, w.entry config.Name = some (Entry.dir d) ∧ env.qemuImg = true := by
  by_contra hne
  exact (Create_error_step hne).1 h

theorem Start_success {cfg : Config} {env : Env} {name : String} {w : World}
    (h : (kvmClient.Start cfg env name w).1 = none) :
    ∃ m pid, kvmClient.loadMetadata cfg name w = .ok m ∧ m.State ≠ StateRunning ∧
      env.spawn = some pid := by
  unfold kvmClient.Start at h
  cases hl : kvmClient.loadMetadata cfg name w with
  | error e => simp [hl] at h
  | ok m =>
    by_cases hs : m.State = StateRunning
    · simp [hl, hs] at h
    · cases hp : env.spawn with
      | none => simp [hl, hs, hp] at h
      | some pid => exact ⟨m, pid, rfl, hs, rfl⟩

theorem Stop_success {cfg : Config} {env : Env} {name : String} {force : Bool} {w : World}
    (h : (kvmClient.Stop cfg env name force w).1 = none) :
    ∃ m, kvmClient.loadMetadata cfg name w = .ok m ∧ m.State = StateRunning := by
  by_contra hne
  exact (Stop_error cfg env name force w (fun m hl hs => hne ⟨m, hl, hs⟩)).1 h

/-- The record and the frame of a successful `Start`. -/
theorem Start_effect {cfg : Config} {env : Env} {name : String} {w : World}
    {m : InstanceMetadata} (hl : kvmClient.loadMetadata cfg name w = .ok m)
    (h : (kvmClient.Start cfg env name w).1 = none) :
    ∃ pid, env.spawn = some pid ∧
      kvmClient.loadMetadata cfg name (kvmClient.Start cfg env name w).2
        = .ok { m with State := StateRunning, PID := pid } ∧
      ∀ n, n ≠ name → (kvmClient.Start cfg env name w).2.entry n = w.entry n := by
  obtain ⟨m1, pid, hl1, hs, hp⟩ := Start_success h
  rw [hl] at hl1
  cases hl1
  obtain ⟨d, he, heq⟩ := Start_spawned env hl hs hp
  refine ⟨pid, hp, ?_, ?_⟩
  · rw [heq]
    exact loadMetadata_put cfg d.disk (by simp [he])
      (validRecord_stopped (loadMetadata_valid hl) StateRunning pid)
  · intro n hn
    rw [heq]
    simp [World.put_entry_ne _ hn]

/-- The record and the frame of a successful `Stop`. -/
theorem Stop_effect {cfg : Config} {env : Env} {name : String} {force : Bool} {w : World}
    {m : InstanceMetadata} (hl : kvmClient.loadMetadata cfg name w = .ok m)
    (h : (kvmClient.Stop cfg env name force w).1 = none) :
    kvmClient.loadMetadata cfg name (kvmClient.Stop cfg env name force w).2
      = .ok { m with State := StateStopped, PID := 0 } ∧
    ∀ n, n ≠ name → (kvmClient.Stop cfg env name force w).2.entry n = w.entry n := by
  obtain ⟨m1, hl1, hs⟩ := Stop_success h
  rw [hl] at hl1
  cases hl1
  obtain ⟨d, he, heq⟩ := Stop_running env force hl hs
  refine ⟨?_, ?_⟩
  · rw [heq]
    exact loadMetadata_put cfg d.disk (by simp [he])
      (validRecord_stopped (loadMetadata_valid hl) StateStopped 0)
  · intro n hn
    rw [heq]
    simp [World.put_entry_ne _ hn]

/-- The record of a successful `Create`. -/
theorem Create_effect {cfg : Config} {env : Env} {config : VMConfig} {w : World}
    (h : (kvmClient.Create cfg env config w).1 = none) :
    kvmClient.loadMetadata cfg config.Name (kvmClient.Create cfg env config w).2
      = .ok (createdRecord cfg env config) := by
  obtain ⟨d, he, hq⟩ := Create_success h
  rw [Create_ok cfg env config he hq]
  refine loadMetadata_put cfg true ?_ (validRecord_created cfg env config)
  rw [World.put_entry_self _ (by simp [he])]
  rfl

/-! ## Lemmas: the address of an instance -/

theorem foldl_add_toNat (l : List Char) (init : Nat) :
    l.foldl (fun port char => port + char.toNat) init = init + (l.map Char.toNat).sum := by
  induction l generalizing init with
  | nil => rfl
  | cons c rest ih =>
    simp only [List.foldl_cons, List.map_cons, List.sum_cons, ih]
    omega

/-! ## Lemmas: the time the wait loop takes -/

theorem second_pos : 0 < second := by decide

/-- When every attempt fails the loop reports no connection, sleeps only the one second
between attempts, and ends less than six seconds after the timeout, counted from the start
of the wait. -/
theorem waitLoop_all_fail (timeout : Int) (addr : String) (dial : Nat → DialResult)
    (hfail : ∀ i, (dial i).ok = false) (fuel attempt elapsed : Nat) (w : World) :
    (sshClient.waitLoop timeout addr dial fuel attempt elapsed w).1 = false ∧
    ∃ ext, (sshClient.waitLoop timeout addr dial fuel attempt elapsed w).2.trace = w.trace ++ ext ∧
      Event.sleep (2 * second) ∉ ext ∧
      (elapsedOf ext = 0 ∨ ((elapsed + elapsedOf ext : Nat) : Int) < timeout + 6 * second) := by
  induction fuel generalizing attempt elapsed w with
  | zero => exact ⟨rfl, [], by simp [sshClient.waitLoop], by simp, Or.inl rfl⟩
  | succ fuel ih =>
    unfold sshClient.waitLoop
    by_cases ht : (elapsed : Int) < timeout
    · rw [if_pos ht]
      simp only [hfail attempt, Bool.false_eq_true, if_false]
      obtain ⟨hres, ext, htr, hno, hel⟩ := ih (attempt + 1)
        (elapsed + min (dial attempt).took (5 * second) + second)
        ((w.emit (Event.dial addr (min (dial attempt).took (5 * second)))).emit
          (Event.sleep second))
      refine ⟨hres, Event.dial addr (min (dial attempt).took (5 * second)) ::
        Event.sleep second :: ext, by simp [htr], ?_, Or.inr ?_⟩
      · intro hmem
        simp only [List.mem_cons] at hmem
        rcases hmem with h | h | h
        · cases h
        · have : 2 * second = second := by
            injection h
          have hp := second_pos
          omega
        · exact hno h
      · simp only [elapsedOf]
        have hmin : min (dial attempt).took (5 * second) ≤ 5 * second := Nat.min_le_right _ _
        rcases hel with h0 | h1
        · rw [h0]
          push_cast
          push_cast at hmin
          have hmin2 : ((min (dial attempt).took (5 * second) : Nat) : Int) ≤ 5 * (second : Int) := by
            exact_mod_cast hmin
          push_cast at hmin2
          omega
        · have e : elapsed + (min (dial attempt).took (5 * second) + (second + elapsedOf ext))
              = elapsed + min (dial attempt).took (5 * second) + second + elapsedOf ext := by
            omega
          rw [e]
          exact h1
    · rw [if_neg ht]
      exact ⟨rfl, [], by simp, by simp, Or.inl rfl⟩

/-- When the loop reports a connection, the last thing it did is the settle delay of two
seconds. -/
theorem waitLoop_success (timeout : Int) (addr : String) (dial : Nat → DialResult)
    (fuel attempt elapsed : Nat) (w : World)
    (h : (sshClient.waitLoop timeout addr dial fuel attempt elapsed w).1 = true) :
    ∃ pre, (sshClient.waitLoop timeout addr dial fuel attempt elapsed w).2.trace
      = w.trace ++ pre ++ [Event.sleep (2 * second)] := by
  induction fuel generalizing attempt elapsed w with
  | zero => simp [sshClient.waitLoop] at h
  | succ fuel ih =>
    unfold sshClient.waitLoop at h ⊢
    by_cases ht : (elapsed : Int) < timeout
    · rw [if_pos ht] at h ⊢
      by_cases hok : (dial attempt).ok = true
      · simp only [hok, if_true]
        exact ⟨[Event.dial addr (min (dial attempt).took (5 * second))], by simp⟩
      · simp only [hok, Bool.false_eq_true, if_false] at h ⊢
        obtain ⟨pre, hpre⟩ := ih _ _ _ h
        exact ⟨Event.dial addr (min (dial attempt).took (5 * second)) ::
          Event.sleep second :: pre, by simp [hpre]⟩
    · rw [if_neg ht] at h
      cases h

theorem WaitForConnection_unfold (cfg : Config) (env : Env) (name : String) (w : World) :
    sshClient.WaitForConnection cfg env name w =
      match sshClient.waitLoop (cfg.SSHTimeout * second)
          ((sshClient.getInstanceAddress name).1 ++ ":" ++
            toString (sshClient.getInstanceAddress name).2)
          env.dial cfg.SSHTimeout.toNat 0 0 w with
      | (true, w1) => (none, w1)
      | (false, w1) =>
        (some (Err.msg ("timeout waiting for SSH connection to " ++ name)), w1) := rfl

/-! ## Lemmas: the image check -/

theorem splitChars_ne_nil (sep : Char) (l : List Char) : splitChars sep l ≠ [] := by
  cases l with
  | nil => simp [splitChars]
  | cons c rest =>
    unfold splitChars
    by_cases hc : c = sep
    · simp [hc]
    · rw [if_neg hc]
      cases splitChars sep rest <;> simp

theorem splitChars_head (sep : Char) (l : List Char) :
    (splitChars sep l).headD [] = l.takeWhile (fun c => decide (c ≠ sep)) := by
  induction l with
  | nil => rfl
  | cons c rest ih =>
    unfold splitChars
    by_cases hc : c = sep
    · simp [hc]
    · rw [if_neg hc]
      have hne := splitChars_ne_nil sep rest
      cases hs : splitChars sep rest with
      | nil => exact absurd hs hne
      | cons part parts =>
        rw [hs] at ih
        simp only [List.headD_cons] at ih
        simp [hc, ih]

theorem stringsSplit_head (s : String) (sep : Char) :
    (stringsSplit s sep).headD "" = String.mk (s.data.takeWhile (fun c => decide (c ≠ sep))) := by
  unfold stringsSplit
  have hne := splitChars_ne_nil sep s.data
  have hh := splitChars_head sep s.data
  cases hs : splitChars sep s.data with
  | nil => exact absurd hs hne
  | cons part parts =>
    rw [hs] at hh
    simp only [List.headD_cons] at hh
    simp [hh]

/-! ## Lemmas: a launch that fails at the disk -/

theorem Create_disk_fails (cfg : Config) (env : Env) (config : VMConfig) {w : World}
    {d : InstanceDir} (he : w.entry config.Name = some (Entry.dir d))
    (hq : env.qemuImg = false) :
    kvmClient.Create cfg env config w =
      (some (Err.wrap "failed to create disk image" (Err.exitStatus cfg.QEMUImgBinary)),
        w.emit (Event.run cfg.QEMUImgBinary ["create", "-f", "qcow2",
          joinPath (instanceDirPath cfg config.Name) "disk.qcow2", config.Disk])) := by
  simp [kvmClient.Create, kvmClient.createDiskImage, he, hq]

/-- The outcome of a launch whose name had no entry and whose `qemu-img` fails. -/
theorem Launch_disk_fails (cfg : Config) {env : Env} (config : LaunchConfig) {w : World}
    (he : w.entry (launchName config) = none) (hq : env.qemuImg = false) :
    ∃ w1 : World,
      Manager.Launch cfg env config w =
        (some (Err.wrap "failed to create VM"
          (Err.wrap "failed to create disk image" (Err.exitStatus cfg.QEMUImgBinary))), w1) ∧
      w1.entry (launchName config) = some (Entry.dir ⟨none, false⟩) ∧
      (∀ n, n ≠ launchName config → w1.entry n = w.entry n) ∧
      w1.trace = w.trace ++
        [Event.print ("Launching " ++ launchName config ++ "...\n"),
         Event.run cfg.QEMUImgBinary ["create", "-f", "qcow2",
           joinPath (instanceDirPath cfg (launchName config)) "disk.qcow2", config.Disk]] := by
  have hex : ¬ Manager.instanceExists w (launchName config) = true := by
    simp [Manager.instanceExists, statOk, he]
  have he0 : (w.emit (Event.print ("Launching " ++ launchName config ++ "...\n"))).entry
      (launchName config) = none := he
  obtain ⟨hm1, hm2, hm3⟩ := mkdirAll_entry_new cfg he0
  rcases hmk : mkdirAll cfg (launchName config)
    (w.emit (Event.print ("Launching " ++ launchName config ++ "...\n"))) with ⟨r1, v⟩
  rw [hmk] at hm1 hm2 hm3
  simp only at hm1 hm2 hm3
  subst hm1
  have hfr : ∀ n, n ≠ launchName config → v.entry n = w.entry n := by
    intro n hn
    have := mkdirAll_entry_ne cfg
      (w := w.emit (Event.print ("Launching " ++ launchName config ++ "...\n"))) hn
    rw [hmk] at this
    exact this
  have hcreate : kvmClient.Create cfg env (launchVMConfig cfg config) v =
      (some (Err.wrap "failed to create disk image" (Err.exitStatus cfg.QEMUImgBinary)),
        v.emit (Event.run cfg.QEMUImgBinary ["create", "-f", "qcow2",
          joinPath (instanceDirPath cfg (launchName config)) "disk.qcow2", config.Disk])) :=
    Create_disk_fails cfg env (launchVMConfig cfg config) hm2 hq
  refine ⟨v.emit (Event.run cfg.QEMUImgBinary ["create", "-f", "qcow2",
    joinPath (instanceDirPath cfg (launchName config)) "disk.qcow2", config.Disk]),
    ?_, ?_, ?_, ?_⟩
  · rw [Launch_unfold, if_neg hex, hmk]
    simp only
    rw [hcreate]
  · rw [World.emit_entry]
    exact hm2
  · intro n hn
    rw [World.emit_entry]
    exact hfr n hn
  · simp [hm3]

/-! ## Theorems -/

/-- C1: a valid record saved with `saveMetadata` to the metadata path of an instance
directory and read back with `loadMetadata` comes back equal in every field, the fields
left out of the document under `omitempty` included. -/
theorem C1_save_load_roundtrip (cfg : Config) (r : InstanceMetadata) (name : String)
    (w : World) (hr : validRecord r = true) (hd : w.hasDir name) :
    (kvmClient.saveMetadata cfg r name w).1 = none ∧
    kvmClient.loadMetadata cfg name (kvmClient.saveMetadata cfg r name w).2 = .ok r := by
  obtain ⟨d, hd⟩ := hd
  rw [saveMetadata_dir hd hr]
  exact ⟨rfl, loadMetadata_put cfg d.disk (by simp [hd]) hr⟩

/-- C1 at a stopped record whose `cloud_init`, `pid`, `ipv4` and `mac` are left out of the
document. -/
theorem C1_save_load_roundtrip_witness :
    validRecord sampleStopped = true ∧ sampleEmptyDir.hasDir "t1" ∧
    (kvmClient.saveMetadata sampleConfig sampleStopped "t1" sampleEmptyDir).1 = none ∧
    kvmClient.loadMetadata sampleConfig "t1"
      (kvmClient.saveMetadata sampleConfig sampleStopped "t1" sampleEmptyDir).2
      = .ok sampleStopped :=
  ⟨by decide, ⟨_, rfl⟩,
    C1_save_load_roundtrip sampleConfig sampleStopped "t1" sampleEmptyDir (by decide) ⟨_, rfl⟩⟩

/-- C2: from an empty store, after any sequence of `Launch`, `Create`, `Start`, `Stop` and
`Delete` calls, failing ones included, every record that loads has a process id only if it
is running; and a call that takes a running record to another state leaves it with the
process id 0. -/
theorem C2_pid_implies_running (cfg : Config) (ops : List (Env × Op)) (w0 : World)
    (h0 : ∀ name, w0.entry name = none) :
    PidInvariant cfg (runOps cfg ops w0) ∧
    ∀ (env : Env) (op : Op) (w : World) (name : String) (m m1 : InstanceMetadata),
      kvmClient.loadMetadata cfg name w = .ok m → m.State = StateRunning →
      kvmClient.loadMetadata cfg name (op.run cfg env w).2 = .ok m1 →
      m1.State ≠ StateRunning → m1.PID = 0 := by
  constructor
  · have hinit : PidInvariant cfg w0 := fun name m hl =>
      absurd hl (loadMetadata_none (h0 name))
    exact hinit.step (runOps_step cfg ops w0)
  · intro env op w name m m1 hl hs hl1 hs1
    rcases Op.run_step cfg env op w name m1 hl1 with h | h
    · rw [hl] at h
      cases h
      exact absurd hs hs1
    · by_contra hp
      exact hs1 (h hp)

/-- C2 at the launch of `t1` into the empty store: the record at rest has the process id
4242 and is running. -/
theorem C2_pid_implies_running_witness :
    (∀ name, emptyWorld.entry name = none) ∧
    kvmClient.loadMetadata sampleConfig "t1"
      (runOps sampleConfig [(sampleEnv, Op.launch sampleLaunch)] emptyWorld) = .ok sampleRunning ∧
    sampleRunning.PID ≠ 0 ∧ sampleRunning.State = StateRunning :=
  ⟨fun _ => rfl, rfl, by decide,
    (C2_pid_implies_running sampleConfig [(sampleEnv, Op.launch sampleLaunch)] emptyWorld
      (fun _ => rfl)).1 "t1" sampleRunning rfl (by decide)⟩

/-- C3, the claim as stated fails: with `a` and `c` running and no `b`, `stop a b c` returns
the error of `b` and leaves `c` running with its process id. -/
theorem C3_stop_continues_counterexample :
    kvmClient.loadMetadata sampleConfig "a" sampleAC = .ok (runningRecord "a" 101) ∧
    kvmClient.loadMetadata sampleConfig "b" sampleAC
      = .error (Err.notExist "/home/u/.slackpass/instances/b/metadata.json") ∧
    kvmClient.loadMetadata sampleConfig "c" sampleAC = .ok (runningRecord "c" 103) ∧
    (stopCmd.RunE sampleConfig (fun _ => sampleEnv) false ["a", "b", "c"] sampleAC).1
      = some (Err.wrap "failed to stop b" (Err.wrap "failed to load metadata"
          (Err.notExist "/home/u/.slackpass/instances/b/metadata.json"))) ∧
    kvmClient.loadMetadata sampleConfig "c"
      (stopCmd.RunE sampleConfig (fun _ => sampleEnv) false ["a", "b", "c"] sampleAC).2
      = .ok (runningRecord "c" 103) ∧
    (runningRecord "c" 103).State ≠ StateStopped ∧ (runningRecord "c" 103).PID ≠ 0 :=
  ⟨rfl, rfl, rfl, rfl, rfl, by decide, by decide⟩

/-- C3, amended: when `A` is running and `B` has no record or is not running, `stop A B ...`
stops `A` (its record ends stopped with the process id 0), returns an error that names `B`
and ends there: no other entry of the store is touched and nothing but the signal to `A`
and the report of `A` is added to the trace.  The start and the delete command end at
their first failing name in the same way. -/
theorem C3_batch_ends_at_first_failure (cfg : Config) (envs : Nat → Env)
    (purge force : Bool) (A B : String) (rest : List String) (w : World)
    (mA : InstanceMetadata) (hA : kvmClient.loadMetadata cfg A w = .ok mA)
    (hrun : mA.State = StateRunning)
    (hB : ∀ m, kvmClient.loadMetadata cfg B w = .ok m → m.State ≠ StateRunning) :
    (∃ e, (stopCmd.RunE cfg envs force (A :: B :: rest) w).1
      = some (Err.wrap ("failed to stop " ++ B) e)) ∧
    kvmClient.loadMetadata cfg A (stopCmd.RunE cfg envs force (A :: B :: rest) w).2
      = .ok { mA with State := StateStopped, PID := 0 } ∧
    (∀ n, n ≠ A → (stopCmd.RunE cfg envs force (A :: B :: rest) w).2.entry n = w.entry n) ∧
    (stopCmd.RunE cfg envs force (A :: B :: rest) w).2.trace
      = (kvmClient.signalProcess (envs 0) mA.PID force w).trace
        ++ [Event.print ("Stopped: " ++ A ++ "\n")] ∧
    (∀ w1 w2 e, Manager.Start cfg (envs 0) A (NewManager w) = (none, w1) →
      Manager.Start cfg (envs 1) B (w1.emit (Event.print ("Started: " ++ A ++ "\n")))
        = (some e, w2) →
      startCmd.RunE cfg envs (A :: B :: rest) w
        = (some (Err.wrap ("failed to start " ++ B) e), w2)) ∧
    (∀ w1 w2 e, Manager.Delete cfg (envs 0) A purge force (NewManager w) = (none, w1) →
      Manager.Delete cfg (envs 1) B purge force
        (w1.emit (Event.print ("Deleted: " ++ A ++ "\n"))) = (some e, w2) →
      deleteCmd.RunE cfg envs purge force (A :: B :: rest) w
        = (some (Err.wrap ("failed to delete " ++ B) e), w2)) := by
  have hAB : B ≠ A := fun h => hB mA (h ▸ hA) hrun
  have hA1 : kvmClient.loadMetadata cfg A (NewManager w) = .ok mA :=
    (loadMetadata_congr (NewManager_entry w A)).trans hA
  obtain ⟨d, he, hstop⟩ := Stop_running (envs 0) force hA1 hrun
  have hB1 : ∀ m, kvmClient.loadMetadata cfg B
      (((kvmClient.signalProcess (envs 0) mA.PID force (NewManager w)).put A
        (Entry.dir ⟨some (FileData.object
          (marshalMembers { mA with State := StateStopped, PID := 0 })), d.disk⟩)).emit
        (Event.print ("Stopped: " ++ A ++ "\n"))) = .ok m → m.State ≠ StateRunning := by
    intro m hm
    refine hB m ((loadMetadata_congr ?_).symm.trans hm)
    simp [World.put_entry_ne _ hAB]
  have herr := Stop_error cfg (envs (0 + 1)) B force _ hB1
  rcases hres : kvmClient.Stop cfg (envs (0 + 1)) B force
      (((kvmClient.signalProcess (envs 0) mA.PID force (NewManager w)).put A
        (Entry.dir ⟨some (FileData.object
          (marshalMembers { mA with State := StateStopped, PID := 0 })), d.disk⟩)).emit
        (Event.print ("Stopped: " ++ A ++ "\n"))) with ⟨r, w2⟩
  rw [hres] at herr
  obtain ⟨hne, hw2⟩ := herr
  simp only at hne hw2
  cases r with
  | none => exact absurd rfl hne
  | some e =>
    have hloop : stopCmd.RunE cfg envs force (A :: B :: rest) w
        = (some (Err.wrap ("failed to stop " ++ B) e), w2) :=
      stopCmd_loop_abort hstop hres
    rw [hloop, hw2]
    refine ⟨⟨e, rfl⟩, ?_, ?_, ?_, ?_, ?_⟩
    · exact (loadMetadata_congr (World.emit_entry _ _ _)).trans
        (loadMetadata_put cfg d.disk (by simp [he])
          (validRecord_stopped (loadMetadata_valid hA) StateStopped 0))
    · intro n hn
      simp [World.put_entry_ne _ hn]
    · simp only [World.emit_trace, World.put_trace]
      congr 1
      unfold kvmClient.signalProcess
      split_ifs <;> rfl
    · intro w1 w3 e1 h1 h2
      exact startCmd_loop_abort h1 h2
    · intro w1 w3 e1 h1 h2
      exact deleteCmd_loop_abort h1 h2

/-- C3, amended, at `stop a b c` with `a` and `c` running and no `b`. -/
theorem C3_batch_ends_at_first_failure_witness :
    kvmClient.loadMetadata sampleConfig "a" sampleAC = .ok (runningRecord "a" 101) ∧
    (runningRecord "a" 101).State = StateRunning ∧
    (∀ m, kvmClient.loadMetadata sampleConfig "b" sampleAC = .ok m → m.State ≠ StateRunning) ∧
    (∃ e, (stopCmd.RunE sampleConfig (fun _ => sampleEnv) false ["a", "b", "c"] sampleAC).1
      = some (Err.wrap ("failed to stop " ++ "b") e)) ∧
    kvmClient.loadMetadata sampleConfig "a"
      (stopCmd.RunE sampleConfig (fun _ => sampleEnv) false ["a", "b", "c"] sampleAC).2
      = .ok { runningRecord "a" 101 with State := StateStopped, PID := 0 } ∧
    (∀ n, n ≠ "a" →
      (stopCmd.RunE sampleConfig (fun _ => sampleEnv) false ["a", "b", "c"] sampleAC).2.entry n
        = sampleAC.entry n) :=
  have hB : ∀ m, kvmClient.loadMetadata sampleConfig "b" sampleAC = .ok m →
      m.State ≠ StateRunning := fun _ h =>
    absurd h (loadMetadata_none rfl)
  have h := C3_batch_ends_at_first_failure sampleConfig (fun _ => sampleEnv) false false
    "a" "b" ["c"] sampleAC (runningRecord "a" 101) rfl rfl hB
  ⟨rfl, rfl, hB, h.1, h.2.1, h.2.2.1⟩

/-- C4: `Launch` with an explicit name that has an instance directory returns the error
`instance '<name>' already exists` and leaves the world as it was: no directory, disk or
metadata is written and nothing is added to the trace, so no process is spawned. -/
theorem C4_launch_existing_name (cfg : Config) (env : Env) (config : LaunchConfig)
    (w : World) (hname : config.Name ≠ "") (hdir : w.hasDir config.Name) :
    Manager.Launch cfg env config w =
      (some (Err.msg ("instance \x27" ++ config.Name ++ "\x27 already exists")), w) := by
  obtain ⟨d, hd⟩ := hdir
  have hn : launchName config = config.Name := by simp [launchName, hname]
  rw [Launch_unfold, hn]
  have hex : Manager.instanceExists w config.Name = true := by
    simp [Manager.instanceExists, statOk, hd]
  rw [if_pos hex]

/-- C4 at the sample request for `t1` in a world where `t1` is running. -/
theorem C4_launch_existing_name_witness :
    sampleLaunch.Name ≠ "" ∧ sampleT1.hasDir sampleLaunch.Name ∧
    Manager.Launch sampleConfig sampleEnv sampleLaunch sampleT1 =
      (some (Err.msg ("instance \x27" ++ sampleLaunch.Name ++ "\x27 already exists")), sampleT1) ∧
    (Err.msg ("instance \x27" ++ sampleLaunch.Name ++ "\x27 already exists")).render
      = "instance \x27t1\x27 already exists" :=
  ⟨by decide, ⟨_, rfl⟩,
    C4_launch_existing_name sampleConfig sampleEnv sampleLaunch sampleT1 (by decide) ⟨_, rfl⟩,
    by decide⟩

/-- C5: when the name has a record that decodes, the first `Delete` succeeds and the
instance directory is gone; the second `Delete` returns the not-found error of the load and
leaves the world as the first one left it. -/
theorem C5_delete_twice (cfg : Config) (env1 env2 : Env) (name : String)
    (purge force : Bool) (w : World) (m : InstanceMetadata)
    (hl : kvmClient.loadMetadata cfg name w = .ok m) :
    (kvmClient.Delete cfg env1 name purge force w).1 = none ∧
    (kvmClient.Delete cfg env1 name purge force w).2.entry name = none ∧
    kvmClient.Delete cfg env2 name purge force (kvmClient.Delete cfg env1 name purge force w).2
      = (some (Err.wrap "failed to load metadata" (Err.notExist (metadataPath cfg name))),
         (kvmClient.Delete cfg env1 name purge force w).2) := by
  rw [Delete_ok hl]
  refine ⟨rfl, removeAll_entry_self _ _, ?_⟩
  unfold kvmClient.Delete
  rw [loadMetadata_absent (removeAll_entry_self _ _)]

/-- C5 at the running instance `t1`. -/
theorem C5_delete_twice_witness :
    kvmClient.loadMetadata sampleConfig "t1" sampleT1 = .ok sampleRunning ∧
    (kvmClient.Delete sampleConfig sampleEnv "t1" false false sampleT1).1 = none ∧
    (kvmClient.Delete sampleConfig sampleEnv "t1" false false sampleT1).2.entry "t1" = none ∧
    kvmClient.Delete sampleConfig sampleEnv "t1" false false
        (kvmClient.Delete sampleConfig sampleEnv "t1" false false sampleT1).2
      = (some (Err.wrap "failed to load metadata"
          (Err.notExist (metadataPath sampleConfig "t1"))),
         (kvmClient.Delete sampleConfig sampleEnv "t1" false false sampleT1).2) :=
  ⟨rfl, C5_delete_twice sampleConfig sampleEnv sampleEnv "t1" false false sampleT1
    sampleRunning rfl⟩

/-- C6: after a `Launch` whose name did not exist, whose disk was created and whose process
was spawned, `List` returns no error and a summary with the name of the launch, the state
`Running` and the cpus, memory and disk of the request. -/
theorem C6_launch_then_list (cfg : Config) (env : Env) (config : LaunchConfig) (w : World)
    (pid : Int) (he : w.entry (launchName config) = none) (hq : env.qemuImg = true)
    (hp : env.spawn = some pid) :
    (kvmClient.List cfg (Manager.Launch cfg env config w).2).2 = none ∧
    ∃ inst ∈ (kvmClient.List cfg (Manager.Launch cfg env config w).2).1,
      inst.Name = launchName config ∧ inst.State = StateRunning ∧
      inst.CPUs = config.CPUs ∧ inst.Memory = config.Memory ∧ inst.Disk = config.Disk := by
  obtain ⟨_, hent, _, _⟩ := Launch_outcome cfg config he hq hp
  refine ⟨List_no_error _ _, instanceOf (launchedRecord cfg env config pid),
    List_mem_of_entry hent rfl ?_, rfl, rfl, rfl, rfl, rfl⟩
  refine jsonUnmarshal_marshal _ ?_
  exact validRecord_stopped (validRecord_created cfg env (launchVMConfig cfg config))
    StateRunning pid

/-- C6 at the launch of `debian:bookworm` as `t1` with 2 cpus, 2G and 20G into the empty
store. -/
theorem C6_launch_then_list_witness :
    emptyWorld.entry (launchName sampleLaunch) = none ∧ sampleEnv.qemuImg = true ∧
    sampleEnv.spawn = some 4242 ∧ launchName sampleLaunch = "t1" ∧
    (kvmClient.List sampleConfig
      (Manager.Launch sampleConfig sampleEnv sampleLaunch emptyWorld).2).1
      = [instanceOf sampleRunning] ∧
    ∃ inst ∈ (kvmClient.List sampleConfig
        (Manager.Launch sampleConfig sampleEnv sampleLaunch emptyWorld).2).1,
      inst.Name = launchName sampleLaunch ∧ inst.State = StateRunning ∧
      inst.CPUs = 2 ∧ inst.Memory = "2G" ∧ inst.Disk = "20G" :=
  ⟨rfl, rfl, rfl, rfl, rfl,
    (C6_launch_then_list sampleConfig sampleEnv sampleLaunch emptyWorld 4242 rfl rfl rfl).2⟩

/-- C7: `Stop` without force on a running record succeeds and stores it as stopped with the
process id 0; a `Start` after it whose spawn gives the process id `pid`, a positive
number, succeeds and stores the record as running with `pid`. -/
theorem C7_stop_then_start (cfg : Config) (env1 env2 : Env) (name : String) (w : World)
    (m : InstanceMetadata) (pid : Int)
    (hl : kvmClient.loadMetadata cfg name w = .ok m) (hs : m.State = StateRunning)
    (hp : env2.spawn = some pid) (hpos : 0 < pid) :
    (kvmClient.Stop cfg env1 name false w).1 = none ∧
    kvmClient.loadMetadata cfg name (kvmClient.Stop cfg env1 name false w).2
      = .ok { m with State := StateStopped, PID := 0 } ∧
    (kvmClient.Start cfg env2 name (kvmClient.Stop cfg env1 name false w).2).1 = none ∧
    kvmClient.loadMetadata cfg name
        (kvmClient.Start cfg env2 name (kvmClient.Stop cfg env1 name false w).2).2
      = .ok { m with State := StateRunning, PID := pid } ∧
    ({ m with State := StateRunning, PID := pid } : InstanceMetadata).PID ≠ 0 := by
  obtain ⟨d, he, hstop⟩ := Stop_running env1 false hl hs
  have hv := loadMetadata_valid hl
  have hsome : ((kvmClient.signalProcess env1 m.PID false w).entry name).isSome = true := by
    simp [he]
  have hl1 := loadMetadata_put cfg (r := { m with State := StateStopped, PID := 0 })
    d.disk hsome (validRecord_stopped hv StateStopped 0)
  obtain ⟨d1, he1, hstart⟩ := Start_spawned env2 hl1
    (by exact StateStopped_ne_Running) hp
  rw [hstop]
  refine ⟨rfl, hl1, ?_, ?_, ?_⟩
  · rw [hstart]
  · rw [hstart]
    refine loadMetadata_put cfg d1.disk ?_ (validRecord_stopped hv StateRunning pid)
    rw [World.emit_entry, he1]
    rfl
  · exact ne_of_gt hpos

/-- C7 at the running instance `t1`, restarted with the process id 4243. -/
theorem C7_stop_then_start_witness :
    kvmClient.loadMetadata sampleConfig "t1" sampleT1 = .ok sampleRunning ∧
    sampleRunning.State = StateRunning ∧
    ({ sampleEnv with spawn := some 4243 } : Env).spawn = some 4243 ∧ (0 : Int) < 4243 ∧
    kvmClient.loadMetadata sampleConfig "t1"
        (kvmClient.Stop sampleConfig sampleEnv "t1" false sampleT1).2
      = .ok { sampleRunning with State := StateStopped, PID := 0 } ∧
    kvmClient.loadMetadata sampleConfig "t1"
        (kvmClient.Start sampleConfig { sampleEnv with spawn := some 4243 } "t1"
          (kvmClient.Stop sampleConfig sampleEnv "t1" false sampleT1).2).2
      = .ok { sampleRunning with State := StateRunning, PID := 4243 } :=
  have h := C7_stop_then_start sampleConfig sampleEnv { sampleEnv with spawn := some 4243 }
    "t1" sampleT1 sampleRunning 4243 rfl rfl rfl (by decide)
  ⟨rfl, rfl, rfl, by decide, h.2.1, h.2.2.2.1⟩

/-- C8: `Delete` with purge and force on a running record, in a store where every record is
kept under its own name, first stops the instance (the record is stored as stopped with
process id 0) with a kill, never an interrupt, sent to the recorded process id (the kill
goes out when the id is positive and the process is found), then removes the instance
directory; `List` afterwards has no entry of that name and no other entry of the store
has changed. -/
theorem C8_delete_running (cfg : Config) (env : Env) (name : String) (w : World)
    (m : InstanceMetadata) (hl : kvmClient.loadMetadata cfg name w = .ok m)
    (hs : m.State = StateRunning) (hkey : WellKeyed cfg w) :
    (Manager.Delete cfg env name true true w).1 = none ∧
    kvmClient.loadMetadata cfg name (kvmClient.Stop cfg env name true w).2
      = .ok { m with State := StateStopped, PID := 0 } ∧
    (Manager.Delete cfg env name true true w).2
      = (removeAll name (kvmClient.Stop cfg env name true w).2).2 ∧
    (Manager.Delete cfg env name true true w).2.trace
      = w.trace ++ (if 0 < m.PID ∧ env.findProcess = true then [Event.kill m.PID] else []) ∧
    (Manager.Delete cfg env name true true w).2.entry name = none ∧
    (∀ inst ∈ (kvmClient.List cfg (Manager.Delete cfg env name true true w).2).1,
      inst.Name ≠ name) ∧
    (∀ n, n ≠ name → (Manager.Delete cfg env name true true w).2.entry n = w.entry n) := by
  obtain ⟨d, he, hstop⟩ := Stop_running env true hl hs
  have hdel : Manager.Delete cfg env name true true w
      = (none, (removeAll name (kvmClient.Stop cfg env name true w).2).2) := by
    unfold Manager.Delete
    rw [Delete_ok hl, if_pos hs]
  have hfr : ∀ n, n ≠ name →
      (removeAll name (kvmClient.Stop cfg env name true w).2).2.entry n = w.entry n := by
    intro n hn
    rw [removeAll_entry_ne _ hn, hstop]
    simp [World.put_entry_ne _ hn]
  rw [hdel]
  refine ⟨rfl, ?_, rfl, ?_, removeAll_entry_self _ _, ?_, hfr⟩
  · rw [hstop]
    exact loadMetadata_put cfg d.disk (by simp [he])
      (validRecord_stopped (loadMetadata_valid hl) StateStopped 0)
  · rw [hstop]
    simp only [removeAll, World.put_trace]
    unfold kvmClient.signalProcess
    by_cases hp : 0 < m.PID <;> by_cases hf : env.findProcess = true <;>
      simp [hp, hf, World.emit]
  · intro inst hin
    obtain ⟨n, m1, hsome, hl1, rfl⟩ := List_mem_inv hin
    have hn : n ≠ name := by
      rintro rfl
      rw [removeAll_entry_self] at hsome
      cases hsome
    have hl0 : kvmClient.loadMetadata cfg n w = .ok m1 :=
      (loadMetadata_congr (hfr n hn)).symm.trans hl1
    show m1.Name ≠ name
    rw [hkey n m1 hl0]
    exact hn

/-- C8 at the running instance `t1` with the process id 4242, next to the running `a`. -/
theorem C8_delete_running_witness :
    kvmClient.loadMetadata sampleConfig "t1" sampleT1 = .ok sampleRunning ∧
    sampleRunning.State = StateRunning ∧
    (Manager.Delete sampleConfig sampleEnv "t1" true true sampleT1).1 = none ∧
    (Manager.Delete sampleConfig sampleEnv "t1" true true sampleT1).2.trace
      = [Event.kill 4242] ∧
    (kvmClient.List sampleConfig
      (Manager.Delete sampleConfig sampleEnv "t1" true true sampleT1).2).1
      = [instanceOf (runningRecord "a" 101)] ∧
    (∀ inst ∈ (kvmClient.List sampleConfig
        (Manager.Delete sampleConfig sampleEnv "t1" true true sampleT1).2).1,
      inst.Name ≠ "t1") :=
  have hkey : WellKeyed sampleConfig sampleT1 := by
    intro name m h
    obtain ⟨d, data, he, hd, hu⟩ := loadMetadata_ok_entry h
    by_cases h1 : name = "a"
    · subst h1
      cases he
      cases hd
      cases hu
      rfl
    · by_cases h2 : name = "t1"
      · subst h2
        cases he
        cases hd
        cases hu
        rfl
      · have h3 : ¬ "a" = name := fun hh => h1 hh.symm
        have h4 : ¬ "t1" = name := fun hh => h2 hh.symm
        simp [World.entry, sampleT1, runningDir, findEntry, h3, h4] at he
  have h := C8_delete_running sampleConfig sampleEnv "t1" sampleT1 sampleRunning rfl rfl hkey
  ⟨rfl, rfl, h.1, rfl, rfl, h.2.2.2.2.2.1⟩

/-- C9: `Stop` on a running record returns no error and stores the record as stopped with
the process id 0 whatever `os.FindProcess` and the signal give; its result and the store it
leaves are the same for every answer of the outside. -/
theorem C9_stop_stale_pid (cfg : Config) (env env1 : Env) (name : String) (force : Bool)
    (w : World) (m : InstanceMetadata) (hl : kvmClient.loadMetadata cfg name w = .ok m)
    (hs : m.State = StateRunning) :
    (kvmClient.Stop cfg env name force w).1 = none ∧
    kvmClient.loadMetadata cfg name (kvmClient.Stop cfg env name force w).2
      = .ok { m with State := StateStopped, PID := 0 } ∧
    (kvmClient.Stop cfg env name force w).1 = (kvmClient.Stop cfg env1 name force w).1 ∧
    (kvmClient.Stop cfg env name force w).2.root = (kvmClient.Stop cfg env1 name force w).2.root := by
  obtain ⟨d, he, hstop⟩ := Stop_running env force hl hs
  obtain ⟨d1, he1, hstop1⟩ := Stop_running env1 force hl hs
  rw [he] at he1
  cases he1
  rw [hstop, hstop1]
  refine ⟨rfl, ?_, rfl, ?_⟩
  · exact loadMetadata_put cfg d.disk (by simp [he])
      (validRecord_stopped (loadMetadata_valid hl) StateStopped 0)
  · simp [World.put]

/-- C9 at the running instance `t1`, once with a process that is found and signalled and once
with a process that is gone. -/
theorem C9_stop_stale_pid_witness :
    kvmClient.loadMetadata sampleConfig "t1" sampleT1 = .ok sampleRunning ∧
    sampleRunning.State = StateRunning ∧
    (kvmClient.Stop sampleConfig { sampleEnv with findProcess := false, signal := false }
      "t1" false sampleT1).1 = none ∧
    kvmClient.loadMetadata sampleConfig "t1"
      (kvmClient.Stop sampleConfig { sampleEnv with findProcess := false, signal := false }
        "t1" false sampleT1).2
      = .ok { sampleRunning with State := StateStopped, PID := 0 } ∧
    (kvmClient.Stop sampleConfig { sampleEnv with findProcess := false, signal := false }
      "t1" false sampleT1).2.root
      = (kvmClient.Stop sampleConfig sampleEnv "t1" false sampleT1).2.root :=
  have h := C9_stop_stale_pid sampleConfig
    { sampleEnv with findProcess := false, signal := false } sampleEnv "t1" false sampleT1
    sampleRunning rfl rfl
  ⟨rfl, rfl, h.1, h.2.1, h.2.2.2⟩

/-- C10: when the name did not exist, the disk was created and the process was spawned, but
the wait for the connection times out, `Launch` returns the timeout error and the store
holds the record as running with the process id of the spawn; the directory, the disk and
the record are there and no signal was sent. -/
theorem C10_timeout_not_rolled_back (cfg : Config) (env : Env) (config : LaunchConfig)
    (w : World) (pid : Int) (he : w.entry (launchName config) = none)
    (hq : env.qemuImg = true) (hp : env.spawn = some pid)
    (hwait : (sshClient.WaitForConnection cfg env (launchName config) w).1 ≠ none) :
    (Manager.Launch cfg env config w).1
      = some (Err.wrap "failed to establish SSH connection"
          (Err.msg ("timeout waiting for SSH connection to " ++ launchName config))) ∧
    kvmClient.loadMetadata cfg (launchName config) (Manager.Launch cfg env config w).2
      = .ok (launchedRecord cfg env config pid) ∧
    (launchedRecord cfg env config pid).State = StateRunning ∧
    (launchedRecord cfg env config pid).PID = pid ∧
    (Manager.Launch cfg env config w).2.entry (launchName config) = some (Entry.dir
      ⟨some (FileData.object (marshalMembers (launchedRecord cfg env config pid))), true⟩) ∧
    ∃ ext, (Manager.Launch cfg env config w).2.trace = w.trace ++ ext ∧
      ∀ e ∈ ext, e.isSignal = false := by
  obtain ⟨hres, hent, _, htr⟩ := Launch_outcome cfg config he hq hp
  refine ⟨?_, ?_, rfl, rfl, hent, htr⟩
  · rw [hres, WaitForConnection_error hwait]
    rfl
  · rw [loadMetadata_of_entry hent rfl]
    exact jsonUnmarshal_marshal _
      (validRecord_stopped (validRecord_created cfg env (launchVMConfig cfg config))
        StateRunning pid)

/-- C10 at the sample launch of `t1` into the empty store with an instance that never
answers within the 30 seconds of the timeout. -/
theorem C10_timeout_not_rolled_back_witness :
    emptyWorld.entry (launchName sampleLaunch) = none ∧ sampleSilentEnv.qemuImg = true ∧
    sampleSilentEnv.spawn = some 4242 ∧
    (sshClient.WaitForConnection sampleConfig sampleSilentEnv (launchName sampleLaunch)
      emptyWorld).1 ≠ none ∧
    (Manager.Launch sampleConfig sampleSilentEnv sampleLaunch emptyWorld).1
      = some (Err.wrap "failed to establish SSH connection"
          (Err.msg "timeout waiting for SSH connection to t1")) ∧
    kvmClient.loadMetadata sampleConfig "t1"
      (Manager.Launch sampleConfig sampleSilentEnv sampleLaunch emptyWorld).2
      = .ok sampleRunning :=
  have hwait : (sshClient.WaitForConnection sampleConfig sampleSilentEnv
      (launchName sampleLaunch) emptyWorld).1 ≠ none := by decide
  have h := C10_timeout_not_rolled_back sampleConfig sampleSilentEnv sampleLaunch emptyWorld
    4242 rfl rfl rfl hwait
  ⟨rfl, rfl, rfl, hwait, h.1, h.2.1⟩

/-- C11: `Start` on a running record fails with `already running`, `Stop` on a record that is
not running fails with `not running`, and both fail with the error of the load, the
not-found error of the file for a name with no directory or no `metadata.json`, when the
record does not load; each time the world is left as it was, so nothing is written and no
process is spawned or signalled. -/
theorem C11_precondition_failures_atomic (cfg : Config) (env : Env) (name : String)
    (force : Bool) (w : World) :
    (∀ m, kvmClient.loadMetadata cfg name w = .ok m → m.State = StateRunning →
      kvmClient.Start cfg env name w =
        (some (Err.msg ("instance \x27" ++ name ++ "\x27 is already running")), w)) ∧
    (∀ m, kvmClient.loadMetadata cfg name w = .ok m → m.State ≠ StateRunning →
      kvmClient.Stop cfg env name force w =
        (some (Err.msg ("instance \x27" ++ name ++ "\x27 is not running")), w)) ∧
    (∀ e, kvmClient.loadMetadata cfg name w = .error e →
      kvmClient.Start cfg env name w = (some (Err.wrap "failed to load metadata" e), w) ∧
      kvmClient.Stop cfg env name force w = (some (Err.wrap "failed to load metadata" e), w)) ∧
    ((w.entry name = none ∨ ∃ disk, w.entry name = some (Entry.dir ⟨none, disk⟩)) →
      kvmClient.loadMetadata cfg name w = .error (Err.notExist (metadataPath cfg name))) := by
  refine ⟨?_, ?_, ?_, ?_⟩
  · intro m hl hs
    simp only [kvmClient.Start, hl, hs, if_true]
  · intro m hl hs
    simp only [kvmClient.Stop, hl, ne_eq, hs, not_false_eq_true, if_true]
  · intro e hl
    constructor
    · simp only [kvmClient.Start, hl]
    · simp only [kvmClient.Stop, hl]
  · rintro (he | ⟨disk, he⟩)
    · exact loadMetadata_absent he
    · simp [kvmClient.loadMetadata, readMetadataFile, he]

/-- C11 at `t1`: started while running, stopped while stopped, and both on the name `b`
that has no directory. -/
theorem C11_precondition_failures_atomic_witness :
    kvmClient.Start sampleConfig sampleEnv "t1" sampleT1 =
      (some (Err.msg "instance \x27t1\x27 is already running"), sampleT1) ∧
    kvmClient.Stop sampleConfig sampleEnv "t1" true sampleStoppedT1 =
      (some (Err.msg "instance \x27t1\x27 is not running"), sampleStoppedT1) ∧
    kvmClient.Start sampleConfig sampleEnv "b" sampleT1 =
      (some (Err.wrap "failed to load metadata"
        (Err.notExist "/home/u/.slackpass/instances/b/metadata.json")), sampleT1) ∧
    kvmClient.Stop sampleConfig sampleEnv "b" true sampleT1 =
      (some (Err.wrap "failed to load metadata"
        (Err.notExist "/home/u/.slackpass/instances/b/metadata.json")), sampleT1) :=
  ⟨(C11_precondition_failures_atomic sampleConfig sampleEnv "t1" true sampleT1).1
      sampleRunning rfl rfl,
    (C11_precondition_failures_atomic sampleConfig sampleEnv "t1" true sampleStoppedT1).2.1
      sampleStopped rfl (by decide),
    ((C11_precondition_failures_atomic sampleConfig sampleEnv "b" true sampleT1).2.2.1
      _ rfl).1,
    ((C11_precondition_failures_atomic sampleConfig sampleEnv "b" true sampleT1).2.2.1
      _ rfl).2⟩

/-- C12: `List` returns no error; on a missing instances root it returns the empty list; and
when no two entries of the root have the same name it returns the listing of the
specification: one summary, built from the record, for each directory whose record is there
and decodes, in the order of the entries, with nothing for a plain file, a directory
without `metadata.json` or a record that does not decode, whatever stands before or after
such an entry. -/
theorem C12_list_best_effort (cfg : Config) (w : World) (hu : w.namesUnique) :
    (kvmClient.List cfg w).2 = none ∧
    (w.root = none → (kvmClient.List cfg w).1 = []) ∧
    (kvmClient.List cfg w).1 = listingOf w ∧
    (∀ es1 es2 trace, listingOf ⟨some (es1 ++ es2), trace⟩ =
      listingOf ⟨some es1, trace⟩ ++ listingOf ⟨some es2, trace⟩) ∧
    (∀ n, summaryOf (n, Entry.file) = none) ∧
    (∀ n disk, summaryOf (n, Entry.dir ⟨none, disk⟩) = none) ∧
    (∀ n disk data e, jsonUnmarshal data = .error e →
      summaryOf (n, Entry.dir ⟨some data, disk⟩) = none) ∧
    (∀ n disk data m, jsonUnmarshal data = .ok m →
      summaryOf (n, Entry.dir ⟨some data, disk⟩) = some (instanceOf m)) := by
  refine ⟨List_no_error cfg w, ?_, ?_, ?_, fun _ => rfl, fun _ _ => rfl, ?_, ?_⟩
  · intro hroot
    simp only [kvmClient.List, hroot]
  · unfold World.namesUnique at hu
    unfold kvmClient.List listingOf
    cases hroot : w.root with
    | none => rfl
    | some es =>
      simp only
      rw [hroot] at hu
      exact filterMap_eq_of_mem _ _ es (fun p hp => listEntry_eq_summaryOf hroot hu hp)
  · intro es1 es2 trace
    simp only [listingOf, List.filterMap_append]
  · intro n disk data e he
    simp only [summaryOf, he]
  · intro n disk data m hm
    simp only [summaryOf, hm]

/-- C12 at a root with a plain file, a directory without record, a directory with an
unreadable record and the running `t1`, and at the empty store. -/
theorem C12_list_best_effort_witness :
    sampleMixed.namesUnique ∧
    kvmClient.List sampleConfig sampleMixed = ([instanceOf sampleRunning], none) ∧
    kvmClient.List sampleConfig emptyWorld = ([], none) ∧
    (kvmClient.List sampleConfig sampleMixed).1 = listingOf sampleMixed :=
  have hu : sampleMixed.namesUnique := by
    unfold World.namesUnique sampleMixed
    decide
  ⟨hu, rfl, rfl, (C12_list_best_effort sampleConfig sampleMixed hu).2.2.1⟩

/-- C13: `Manager.Shell` with the empty name goes to the name `n` exactly when the running
instances of the listing are one instance and its name is `n`, and the session is then
opened on `n`; with no running instance it fails with `no running instances found`, with
two or more with `multiple instances running, please specify name`, the world unchanged
both times, so no session is opened.  With another name the session goes to that name and
neither the result nor the trace depends on the store. -/
theorem C13_default_shell_target (cfg : Config) (exit : Option Err) (w : World) :
    (∀ n, Manager.shellName cfg "" w = .ok n ↔ ∃ inst, runningOf cfg w = [inst] ∧ inst.Name = n) ∧
    (∀ inst, runningOf cfg w = [inst] →
      Manager.Shell cfg exit "" w = (exit, w.emit (sessionEvent cfg inst.Name))) ∧
    (runningOf cfg w = [] →
      Manager.Shell cfg exit "" w = (some (Err.msg "no running instances found"), w)) ∧
    (2 ≤ (runningOf cfg w).length →
      Manager.Shell cfg exit "" w =
        (some (Err.msg "multiple instances running, please specify name"), w)) ∧
    (∀ name, name ≠ "" →
      Manager.shellName cfg name w = .ok name ∧
      Manager.Shell cfg exit name w = (exit, w.emit (sessionEvent cfg name)) ∧
      ∀ root1, Manager.Shell cfg exit name ⟨root1, w.trace⟩ =
        (exit, (⟨root1, w.trace⟩ : World).emit (sessionEvent cfg name))) := by
  have hname := shellName_empty cfg w
  refine ⟨?_, ?_, ?_, ?_, ?_⟩
  · intro n
    rw [hname]
    rcases hr : runningOf cfg w with _ | ⟨a, _ | ⟨b, rest⟩⟩
    · simp
    · simp
    · simp
  · intro inst hr
    rw [hr] at hname
    simp only [Manager.Shell, hname, sshClient_Shell_eq]
  · intro hr
    rw [hr] at hname
    simp only [Manager.Shell, hname]
  · intro hlen
    rcases hr : runningOf cfg w with _ | ⟨a, _ | ⟨b, rest⟩⟩
    · rw [hr] at hlen
      simp at hlen
    · rw [hr] at hlen
      simp at hlen
    · rw [hr] at hname
      simp only [Manager.Shell, hname]
  · intro name hn
    have h1 : ∀ v, Manager.shellName cfg name v = .ok name := by
      intro v
      unfold Manager.shellName
      rw [if_neg hn]
    refine ⟨h1 w, ?_, ?_⟩
    · simp only [Manager.Shell, h1 w, sshClient_Shell_eq]
    · intro root1
      simp only [Manager.Shell, h1, sshClient_Shell_eq]

/-- C13 at a store with the one running instance `t1`, at a store with the two running
instances `a` and `t1`, and at the empty store. -/
theorem C13_default_shell_target_witness :
    runningOf sampleConfig sampleMixed = [instanceOf sampleRunning] ∧
    Manager.Shell sampleConfig none "" sampleMixed
      = (none, sampleMixed.emit (sessionEvent sampleConfig "t1")) ∧
    Manager.Shell sampleConfig none "" emptyWorld
      = (some (Err.msg "no running instances found"), emptyWorld) ∧
    (runningOf sampleConfig sampleT1).length = 2 ∧
    Manager.Shell sampleConfig none "" sampleT1
      = (some (Err.msg "multiple instances running, please specify name"), sampleT1) :=
  ⟨rfl,
    (C13_default_shell_target sampleConfig none sampleMixed).2.1 (instanceOf sampleRunning) rfl,
    (C13_default_shell_target sampleConfig none emptyWorld).2.2.1 rfl,
    rfl,
    (C13_default_shell_target sampleConfig none sampleT1).2.2.2.1 (by decide)⟩

/-- C14, what the code does: `generateInstanceName` takes the word at index `len % 6 = 0` of
each pool, so it is `keen-butterfly` every time; a first launch without a name is stored
under that name and a second launch without a name fails with `already exists`. -/
theorem C14_generated_name_is_constant :
    generateInstanceName = "keen-butterfly" ∧
    launchName sampleUnnamed = "keen-butterfly" ∧
    (Manager.Launch sampleConfig sampleEnv sampleUnnamed emptyWorld).1 = none ∧
    ((Manager.Launch sampleConfig sampleEnv sampleUnnamed emptyWorld).2.entry
      "keen-butterfly").isSome = true ∧
    (Manager.Launch sampleConfig sampleEnv sampleUnnamed
      (Manager.Launch sampleConfig sampleEnv sampleUnnamed emptyWorld).2).1
      = some (Err.msg "instance \x27keen-butterfly\x27 already exists") :=
  ⟨by decide, by decide, rfl, rfl, rfl⟩

/-- C15, the claim as stated fails: the record `Create` stores at the time 63900000000 s has
`updated_at` at the zero time, which is not the time of the operation and is earlier than
its `created_at`; and the record `Stop` stores a second later has the `updated_at` of the
record it replaces, not a later one. -/
theorem C15_updated_at_advances_counterexample :
    (kvmClient.Create sampleConfig sampleEnv (launchVMConfig sampleConfig sampleLaunch)
      sampleEmptyDir).1 = none ∧
    kvmClient.loadMetadata sampleConfig "t1"
      (kvmClient.Create sampleConfig sampleEnv (launchVMConfig sampleConfig sampleLaunch)
        sampleEmptyDir).2 = .ok sampleStopped ∧
    sampleStopped.UpdatedAt = Time.zero ∧
    sampleStopped.UpdatedAt ≠ sampleEnv.now ∧
    sampleStopped.UpdatedAt.nanos < sampleStopped.CreatedAt.nanos ∧
    (kvmClient.Stop sampleConfig sampleLaterEnv "t1" false sampleT1).1 = none ∧
    kvmClient.loadMetadata sampleConfig "t1"
      (kvmClient.Stop sampleConfig sampleLaterEnv "t1" false sampleT1).2
      = .ok { sampleRunning with State := StateStopped, PID := 0 } ∧
    ¬ (sampleRunning.UpdatedAt.nanos <
      ({ sampleRunning with State := StateStopped, PID := 0 } : InstanceMetadata).UpdatedAt.nanos) :=
  ⟨rfl, rfl, rfl, by decide, by decide, rfl, rfl, by decide⟩

/-- C15, amended: no operation sets `updated_at`.  The record a successful `Create` stores
has `created_at` at the time of the operation and `updated_at` at the zero time; the record
a successful `Start` or `Stop` stores has the `updated_at` and the `created_at` of the
record it replaces. -/
theorem C15_updated_at_never_set (cfg : Config) (env : Env) (config : VMConfig)
    (name : String) (force : Bool) (w : World) :
    ((kvmClient.Create cfg env config w).1 = none →
      ∃ m1, kvmClient.loadMetadata cfg config.Name (kvmClient.Create cfg env config w).2 = .ok m1 ∧
        m1.CreatedAt = env.now ∧ m1.UpdatedAt = Time.zero) ∧
    (∀ m, kvmClient.loadMetadata cfg name w = .ok m →
      (kvmClient.Start cfg env name w).1 = none →
      ∃ m1, kvmClient.loadMetadata cfg name (kvmClient.Start cfg env name w).2 = .ok m1 ∧
        m1.UpdatedAt = m.UpdatedAt ∧ m1.CreatedAt = m.CreatedAt) ∧
    (∀ m, kvmClient.loadMetadata cfg name w = .ok m →
      (kvmClient.Stop cfg env name force w).1 = none →
      ∃ m1, kvmClient.loadMetadata cfg name (kvmClient.Stop cfg env name force w).2 = .ok m1 ∧
        m1.UpdatedAt = m.UpdatedAt ∧ m1.CreatedAt = m.CreatedAt) := by
  refine ⟨?_, ?_, ?_⟩
  · intro h
    exact ⟨_, Create_effect h, rfl, rfl⟩
  · intro m hl h
    obtain ⟨pid, _, hl1, _⟩ := Start_effect hl h
    exact ⟨_, hl1, rfl, rfl⟩
  · intro m hl h
    exact ⟨_, (Stop_effect hl h).1, rfl, rfl⟩

/-- C15, amended, at the creation of `t1`, at its stop a second later and at its start
after that. -/
theorem C15_updated_at_never_set_witness :
    (∃ m1, kvmClient.loadMetadata sampleConfig "t1"
        (kvmClient.Create sampleConfig sampleEnv (launchVMConfig sampleConfig sampleLaunch)
          sampleEmptyDir).2 = .ok m1 ∧
      m1.CreatedAt = sampleEnv.now ∧ m1.UpdatedAt = Time.zero) ∧
    (∃ m1, kvmClient.loadMetadata sampleConfig "t1"
        (kvmClient.Stop sampleConfig sampleLaterEnv "t1" false sampleT1).2 = .ok m1 ∧
      m1.UpdatedAt = sampleRunning.UpdatedAt ∧ m1.CreatedAt = sampleRunning.CreatedAt) ∧
    (∃ m1, kvmClient.loadMetadata sampleConfig "t1"
        (kvmClient.Start sampleConfig sampleLaterEnv "t1" sampleStoppedT1).2 = .ok m1 ∧
      m1.UpdatedAt = sampleStopped.UpdatedAt ∧ m1.CreatedAt = sampleStopped.CreatedAt) :=
  ⟨(C15_updated_at_never_set sampleConfig sampleEnv (launchVMConfig sampleConfig sampleLaunch)
      "t1" false sampleEmptyDir).1 rfl,
    (C15_updated_at_never_set sampleConfig sampleLaterEnv
      (launchVMConfig sampleConfig sampleLaunch) "t1" false sampleT1).2.2 sampleRunning rfl rfl,
    (C15_updated_at_never_set sampleConfig sampleLaterEnv
      (launchVMConfig sampleConfig sampleLaunch) "t1" false sampleStoppedT1).2.1
        sampleStopped rfl rfl⟩

/-- C16: a successful `Start` or `Stop` stores the record it loaded with only the state and
the process id set anew: name, image, cpus, memory, disk, disk path, cloud-init and creation
time are those of the record before, and no entry of another name changes. -/
theorem C16_configuration_immutable (cfg : Config) (env : Env) (name : String)
    (force : Bool) (w : World) (m : InstanceMetadata)
    (hl : kvmClient.loadMetadata cfg name w = .ok m) :
    ((kvmClient.Start cfg env name w).1 = none →
      ∃ m1 pid, kvmClient.loadMetadata cfg name (kvmClient.Start cfg env name w).2 = .ok m1 ∧
        m1 = { m with State := StateRunning, PID := pid } ∧
        m1.Name = m.Name ∧ m1.Image = m.Image ∧ m1.CPUs = m.CPUs ∧ m1.Memory = m.Memory ∧
        m1.Disk = m.Disk ∧ m1.DiskPath = m.DiskPath ∧ m1.CloudInit = m.CloudInit ∧
        m1.CreatedAt = m.CreatedAt ∧
        ∀ n, n ≠ name → (kvmClient.Start cfg env name w).2.entry n = w.entry n) ∧
    ((kvmClient.Stop cfg env name force w).1 = none →
      ∃ m1, kvmClient.loadMetadata cfg name (kvmClient.Stop cfg env name force w).2 = .ok m1 ∧
        m1 = { m with State := StateStopped, PID := 0 } ∧
        m1.Name = m.Name ∧ m1.Image = m.Image ∧ m1.CPUs = m.CPUs ∧ m1.Memory = m.Memory ∧
        m1.Disk = m.Disk ∧ m1.DiskPath = m.DiskPath ∧ m1.CloudInit = m.CloudInit ∧
        m1.CreatedAt = m.CreatedAt ∧
        ∀ n, n ≠ name → (kvmClient.Stop cfg env name force w).2.entry n = w.entry n) := by
  constructor
  · intro h
    obtain ⟨pid, _, hl1, hfr⟩ := Start_effect hl h
    exact ⟨_, pid, hl1, rfl, rfl, rfl, rfl, rfl, rfl, rfl, rfl, rfl, hfr⟩
  · intro h
    obtain ⟨hl1, hfr⟩ := Stop_effect hl h
    exact ⟨_, hl1, rfl, rfl, rfl, rfl, rfl, rfl, rfl, rfl, rfl, hfr⟩

/-- C16 at the stop of the running `t1` next to `a`, and at the start of the stopped `t1`. -/
theorem C16_configuration_immutable_witness :
    kvmClient.loadMetadata sampleConfig "t1" sampleT1 = .ok sampleRunning ∧
    (kvmClient.Stop sampleConfig sampleEnv "t1" false sampleT1).1 = none ∧
    kvmClient.loadMetadata sampleConfig "t1"
      (kvmClient.Stop sampleConfig sampleEnv "t1" false sampleT1).2
      = .ok { sampleRunning with State := StateStopped, PID := 0 } ∧
    (kvmClient.Stop sampleConfig sampleEnv "t1" false sampleT1).2.entry "a"
      = sampleT1.entry "a" ∧
    (∃ m1 pid, kvmClient.loadMetadata sampleConfig "t1"
        (kvmClient.Start sampleConfig sampleEnv "t1" sampleStoppedT1).2 = .ok m1 ∧
      m1 = { sampleStopped with State := StateRunning, PID := pid }) :=
  have h1 := (C16_configuration_immutable sampleConfig sampleEnv "t1" false sampleT1
    sampleRunning rfl).2 rfl
  have h2 := (C16_configuration_immutable sampleConfig sampleEnv "t1" false sampleStoppedT1
    sampleStopped rfl).1 rfl
  ⟨rfl, rfl, rfl,
    (h1.choose_spec.2.2.2.2.2.2.2.2.2.2) "a" (by decide),
    h2.choose, h2.choose_spec.choose, h2.choose_spec.choose_spec.1,
    h2.choose_spec.choose_spec.2.1⟩

/-- C17, what the code does: the launch of `debian:bookworm` as `t1` stores the path of the
disk of the instance in the `Image` field of the record, which `List` shows, and the image
reference of the request is in no field of the record; the record of a launch is the same
for every image reference. -/
theorem C17_record_image_is_disk_path :
    sampleLaunch.Image = "debian:bookworm" ∧
    (Manager.Launch sampleConfig sampleEnv sampleLaunch emptyWorld).1 = none ∧
    kvmClient.loadMetadata sampleConfig "t1"
      (Manager.Launch sampleConfig sampleEnv sampleLaunch emptyWorld).2 = .ok sampleRunning ∧
    sampleRunning.Image = "/home/u/.slackpass/instances/t1/disk.qcow2" ∧
    sampleRunning.Image = sampleRunning.DiskPath ∧
    sampleRunning.Image ≠ sampleLaunch.Image ∧
    (kvmClient.List sampleConfig
      (Manager.Launch sampleConfig sampleEnv sampleLaunch emptyWorld).2).1.map (fun i => i.Image)
      = ["/home/u/.slackpass/instances/t1/disk.qcow2"] ∧
    (∀ (cfg : Config) (env : Env) (config : LaunchConfig) (pid : Int) (image : String),
      launchedRecord cfg env { config with Image := image } pid
        = launchedRecord cfg env config pid) :=
  ⟨rfl, rfl, rfl, rfl, rfl, by decide, rfl, fun _ _ _ _ _ => rfl⟩

/-- C18: `buildQEMUCommand` gives the configured binary with the ten fixed options in their
order, the cpus in decimal, followed by the cloud-init drive exactly when `cloud_init` is
not empty; two records that agree on name, cpus, memory, disk path and cloud-init give the
same invocation whatever their other fields. -/
theorem C18_invocation_deterministic (cfg : Config) (m m1 : InstanceMetadata)
    (hName : m.Name = m1.Name) (hCPUs : m.CPUs = m1.CPUs) (hMemory : m.Memory = m1.Memory)
    (hDiskPath : m.DiskPath = m1.DiskPath) (hCloudInit : m.CloudInit = m1.CloudInit) :
    kvmClient.buildQEMUCommand cfg m =
      (cfg.QEMUBinary,
        ["-name", m.Name, "-machine", "type=pc,accel=kvm", "-cpu", "host",
         "-smp", toString m.CPUs, "-m", m.Memory,
         "-drive", "file=" ++ m.DiskPath ++ ",format=qcow2,if=virtio",
         "-netdev", "user,id=net0,hostfwd=tcp::0-:22",
         "-device", "virtio-net-pci,netdev=net0", "-nographic", "-daemonize"]
        ++ (if m.CloudInit = "" then []
            else ["-drive", "file=" ++ m.CloudInit ++ ",format=raw,if=virtio"])) ∧
    kvmClient.buildQEMUCommand cfg m = kvmClient.buildQEMUCommand cfg m1 := by
  constructor
  · unfold kvmClient.buildQEMUCommand
    by_cases hc : m.CloudInit = ""
    · simp [hc]
    · simp [hc]
  · unfold kvmClient.buildQEMUCommand
    rw [hName, hCPUs, hMemory, hDiskPath, hCloudInit]

/-- C18 at the stopped and the running record of `t1`, which differ in state and process
id. -/
theorem C18_invocation_deterministic_witness :
    sampleStopped ≠ sampleRunning ∧
    kvmClient.buildQEMUCommand sampleConfig sampleStopped
      = kvmClient.buildQEMUCommand sampleConfig sampleRunning ∧
    kvmClient.buildQEMUCommand sampleConfig sampleStopped =
      ("qemu-system-x86_64",
        ["-name", "t1", "-machine", "type=pc,accel=kvm", "-cpu", "host", "-smp", "2",
         "-m", "2G",
         "-drive", "file=/home/u/.slackpass/instances/t1/disk.qcow2,format=qcow2,if=virtio",
         "-netdev", "user,id=net0,hostfwd=tcp::0-:22",
         "-device", "virtio-net-pci,netdev=net0", "-nographic", "-daemonize"]) ∧
    (kvmClient.buildQEMUCommand sampleConfig
        { sampleStopped with CloudInit := "/home/u/.slackpass/instances/t1/cloud-init.iso" }).2
      = (kvmClient.buildQEMUCommand sampleConfig sampleStopped).2 ++
        ["-drive", "file=/home/u/.slackpass/instances/t1/cloud-init.iso,format=raw,if=virtio"] :=
  ⟨by decide,
    (C18_invocation_deterministic sampleConfig sampleStopped sampleRunning rfl rfl rfl rfl rfl).2,
    by decide, by decide⟩

/-- C20: `getInstanceAddress` gives the host `127.0.0.1` and the port
`2222 + ((2222 + sum of the code points of the name) mod 1000)` from the name alone, so two
names whose sums are congruent modulo 1000 get the same address: `ab` and `ba` both get
the port 2639. -/
theorem C20_address_collides :
    (∀ name, sshClient.getInstanceAddress name =
      ("127.0.0.1", 2222 + (2222 + (name.data.map Char.toNat).sum) % 1000)) ∧
    (∀ name name1, (name.data.map Char.toNat).sum % 1000 = (name1.data.map Char.toNat).sum % 1000 →
      sshClient.getInstanceAddress name = sshClient.getInstanceAddress name1) ∧
    "ab" ≠ "ba" ∧
    sshClient.getInstanceAddress "ab" = ("127.0.0.1", 2639) ∧
    sshClient.getInstanceAddress "ba" = ("127.0.0.1", 2639) := by
  have hform : ∀ name, sshClient.getInstanceAddress name =
      ("127.0.0.1", 2222 + (2222 + (name.data.map Char.toNat).sum) % 1000) := by
    intro name
    simp only [sshClient.getInstanceAddress, foldl_add_toNat]
  refine ⟨hform, ?_, by decide, by decide, by decide⟩
  intro name name1 h
  rw [hform, hform]
  have h2 : (2222 + (name.data.map Char.toNat).sum) % 1000
      = (2222 + (name1.data.map Char.toNat).sum) % 1000 := by
    omega
  rw [h2]

/-- C19, the claim as stated fails: with the timeout of 30 seconds and connection attempts
that each fail after 4.5 seconds, `WaitForConnection` returns the timeout error 33 seconds
after it was called, later than the 31 seconds of the timeout plus one retry interval. -/
theorem C19_bound_one_interval_counterexample :
    sampleConfig.SSHTimeout = 30 ∧
    (sshClient.WaitForConnection sampleConfig sampleSlowEnv "t1" emptyWorld).1
      = some (Err.msg "timeout waiting for SSH connection to t1") ∧
    elapsedOf (sshClient.WaitForConnection sampleConfig sampleSlowEnv "t1" emptyWorld).2.trace
      = 33 * second ∧
    ¬ (elapsedOf (sshClient.WaitForConnection sampleConfig sampleSlowEnv "t1" emptyWorld).2.trace
      ≤ 30 * second + second) :=
  ⟨rfl, rfl, rfl, by decide⟩

/-- C19, amended: for a timeout that is not negative, when every connection attempt fails
`WaitForConnection` returns the timeout error less than the timeout plus the 5 seconds an
attempt may take plus the 1 second of the backoff after it was called, and has not slept the
settle delay; and whenever it returns success, for any outcome of the attempts, the last
thing it did is the settle delay of 2 seconds. -/
theorem C19_readiness_bound (cfg : Config) (env : Env) (name : String) (w : World)
    (h0 : 0 ≤ cfg.SSHTimeout) (hfail : ∀ i, (env.dial i).ok = false) :
    (sshClient.WaitForConnection cfg env name w).1
      = some (Err.msg ("timeout waiting for SSH connection to " ++ name)) ∧
    (∃ ext, (sshClient.WaitForConnection cfg env name w).2.trace = w.trace ++ ext ∧
      Event.sleep (2 * second) ∉ ext ∧
      ((elapsedOf ext : Nat) : Int) < cfg.SSHTimeout * second + 5 * second + second) ∧
    (∀ env1 : Env, (sshClient.WaitForConnection cfg env1 name w).1 = none →
      ∃ pre, (sshClient.WaitForConnection cfg env1 name w).2.trace
        = w.trace ++ pre ++ [Event.sleep (2 * second)]) := by
  refine ⟨?_, ?_, ?_⟩
  · obtain ⟨hres, _⟩ := waitLoop_all_fail (cfg.SSHTimeout * second)
      ((sshClient.getInstanceAddress name).1 ++ ":" ++
        toString (sshClient.getInstanceAddress name).2)
      env.dial hfail cfg.SSHTimeout.toNat 0 0 w
    rw [WaitForConnection_unfold]
    rcases hw : sshClient.waitLoop (cfg.SSHTimeout * second)
      ((sshClient.getInstanceAddress name).1 ++ ":" ++
        toString (sshClient.getInstanceAddress name).2)
      env.dial cfg.SSHTimeout.toNat 0 0 w with ⟨b, w1⟩
    rw [hw] at hres
    simp only at hres
    subst hres
    rfl
  · obtain ⟨_, ext, htr, hno, hel⟩ := waitLoop_all_fail (cfg.SSHTimeout * second)
      ((sshClient.getInstanceAddress name).1 ++ ":" ++
        toString (sshClient.getInstanceAddress name).2)
      env.dial hfail cfg.SSHTimeout.toNat 0 0 w
    rw [WaitForConnection_unfold]
    rcases hw : sshClient.waitLoop (cfg.SSHTimeout * second)
      ((sshClient.getInstanceAddress name).1 ++ ":" ++
        toString (sshClient.getInstanceAddress name).2)
      env.dial cfg.SSHTimeout.toNat 0 0 w with ⟨b, w1⟩
    rw [hw] at htr
    simp only at htr
    have hsec : (0 : Int) < (second : Int) := by exact_mod_cast second_pos
    have hprod : 0 ≤ cfg.SSHTimeout * (second : Int) := mul_nonneg h0 (le_of_lt hsec)
    refine ⟨ext, ?_, hno, ?_⟩
    · cases b <;> exact htr
    · rcases hel with h | h
      · rw [h]
        push_cast
        omega
      · rw [Nat.zero_add] at h
        omega
  · intro env1 hnone
    rw [WaitForConnection_unfold] at hnone ⊢
    have hs := waitLoop_success (cfg.SSHTimeout * second)
      ((sshClient.getInstanceAddress name).1 ++ ":" ++
        toString (sshClient.getInstanceAddress name).2)
      env1.dial cfg.SSHTimeout.toNat 0 0 w
    rcases hw : sshClient.waitLoop (cfg.SSHTimeout * second)
      ((sshClient.getInstanceAddress name).1 ++ ":" ++
        toString (sshClient.getInstanceAddress name).2)
      env1.dial cfg.SSHTimeout.toNat 0 0 w with ⟨b, w1⟩
    rw [hw] at hnone hs
    cases b with
    | false => simp at hnone
    | true => exact hs rfl

/-- C19, amended, at the timeout of 30 seconds with attempts that each fail after 4.5
seconds, and with a first attempt that connects after 10 ms. -/
theorem C19_readiness_bound_witness :
    (0 : Int) ≤ sampleConfig.SSHTimeout ∧ (∀ i, (sampleSlowEnv.dial i).ok = false) ∧
    (sshClient.WaitForConnection sampleConfig sampleSlowEnv "t1" emptyWorld).1
      = some (Err.msg ("timeout waiting for SSH connection to " ++ "t1")) ∧
    (∃ ext, (sshClient.WaitForConnection sampleConfig sampleSlowEnv "t1" emptyWorld).2.trace
        = emptyWorld.trace ++ ext ∧
      Event.sleep (2 * second) ∉ ext ∧
      ((elapsedOf ext : Nat) : Int) < sampleConfig.SSHTimeout * second + 5 * second + second) ∧
    (sshClient.WaitForConnection sampleConfig sampleEnv "t1" emptyWorld).2.trace
      = [Event.dial "127.0.0.1:2609" 10000000, Event.sleep (2 * second)] :=
  have h := C19_readiness_bound sampleConfig sampleSlowEnv "t1" emptyWorld (by decide)
    (fun _ => rfl)
  ⟨by decide, fun _ => rfl, h.1, h.2.1, rfl⟩

/-- C21: `isValidImage` is true exactly when the part of the image string before its first
colon is one of the eight supported distributions, and on every other image the launch
command returns `invalid image format: <image>` with the world as it was; without
arguments the image is `debian:bookworm`, which passes. -/
theorem C21_image_validation (cfg : Config) (env : Env) (image : String)
    (rest : List String) (cpus : Int) (memory disk cloudInit : String) (w : World) :
    (isValidImage image = true ↔ distroPart image ∈ supportedDistros) ∧
    (isValidImage image = false →
      launchCmd.RunE cfg env (image :: rest) cpus memory disk cloudInit w
        = (some (Err.msg ("invalid image format: " ++ image)), w)) ∧
    launchCmd.RunE cfg env [] cpus memory disk cloudInit w
      = Manager.Launch cfg env ⟨"debian:bookworm", "", cpus, memory, disk, cloudInit⟩
          (NewManager w) := by
  refine ⟨?_, ?_, ?_⟩
  · unfold isValidImage distroPart supportedDistros
    simp only [stringsSplit_head, List.any_eq_true, decide_eq_true_eq]
    constructor
    · rintro ⟨valid, hmem, heq⟩
      rw [heq]
      exact hmem
    · intro hmem
      exact ⟨_, hmem, rfl⟩
  · intro hinv
    simp [launchCmd.RunE, hinv]
  · rfl

/-- C21 at images that pass and images that do not, and at the launch of `ubuntu:22.04`
into the store with the running `t1`. -/
theorem C21_image_validation_witness :
    isValidImage "debian:bookworm" = true ∧ isValidImage "debian" = true ∧
    isValidImage "opensuse:leap:15" = true ∧
    isValidImage "ubuntu:22.04" = false ∧ isValidImage "Debian" = false ∧
    isValidImage "debianx" = false ∧ isValidImage ":debian" = false ∧
    isValidImage "" = false ∧
    distroPart "opensuse:leap:15" = "opensuse" ∧
    (isValidImage "centos:7" = true ↔ distroPart "centos:7" ∈ supportedDistros) ∧
    launchCmd.RunE sampleConfig sampleEnv ["ubuntu:22.04", "t2"] 1 "1G" "10G" "" sampleT1
      = (some (Err.msg "invalid image format: ubuntu:22.04"), sampleT1) :=
  ⟨by decide, by decide, by decide, by decide, by decide, by decide, by decide, by decide,
    by decide,
    (C21_image_validation sampleConfig sampleEnv "centos:7" [] 1 "1G" "10G" "" sampleT1).1,
    (C21_image_validation sampleConfig sampleEnv "ubuntu:22.04" ["t2"] 1 "1G" "10G" ""
      sampleT1).2.1 (by decide)⟩

/-- C22: when the name had no entry and `Launch` fails because `qemu-img` fails, no record
is written but the instance directory, empty, remains: the existence check for the name
is true and the load of its record fails with the not-found error; so another `Launch`
of that name fails with `already exists`, and `Delete` of that name fails at the load and
leaves the world, the directory included, as it was. -/
theorem C22_failed_disk_leaves_name (cfg : Config) (env env1 env2 : Env)
    (config config1 : LaunchConfig) (purge force : Bool) (w : World)
    (he : w.entry (launchName config) = none) (hq : env.qemuImg = false)
    (hsame : launchName config1 = launchName config) :
    (Manager.Launch cfg env config w).1 = some (Err.wrap "failed to create VM"
      (Err.wrap "failed to create disk image" (Err.exitStatus cfg.QEMUImgBinary))) ∧
    (Manager.Launch cfg env config w).2.entry (launchName config)
      = some (Entry.dir ⟨none, false⟩) ∧
    Manager.instanceExists (Manager.Launch cfg env config w).2 (launchName config) = true ∧
    kvmClient.loadMetadata cfg (launchName config) (Manager.Launch cfg env config w).2
      = .error (Err.notExist (metadataPath cfg (launchName config))) ∧
    Manager.Launch cfg env1 config1 (Manager.Launch cfg env config w).2
      = (some (Err.msg ("instance \x27" ++ launchName config ++ "\x27 already exists")),
         (Manager.Launch cfg env config w).2) ∧
    Manager.Delete cfg env2 (launchName config) purge force (Manager.Launch cfg env config w).2
      = (some (Err.wrap "failed to load metadata"
          (Err.notExist (metadataPath cfg (launchName config)))),
         (Manager.Launch cfg env config w).2) := by
  obtain ⟨w1, hL, hent, _, _⟩ := Launch_disk_fails cfg config he hq
  rw [hL]
  have hex : Manager.instanceExists w1 (launchName config) = true := by
    simp [Manager.instanceExists, statOk, hent]
  have hload : kvmClient.loadMetadata cfg (launchName config) w1
      = .error (Err.notExist (metadataPath cfg (launchName config))) := by
    simp [kvmClient.loadMetadata, readMetadataFile, hent]
  refine ⟨rfl, hent, hex, hload, ?_, ?_⟩
  · rw [Launch_unfold, hsame, if_pos hex]
  · simp only [Manager.Delete, kvmClient.Delete, hload]

/-- C22 at the launch of `t1` into the empty store with a failing `qemu-img`. -/
theorem C22_failed_disk_leaves_name_witness :
    emptyWorld.entry (launchName sampleLaunch) = none ∧ sampleNoDiskEnv.qemuImg = false ∧
    (Manager.Launch sampleConfig sampleNoDiskEnv sampleLaunch emptyWorld).2
      = ⟨some [("t1", Entry.dir ⟨none, false⟩)],
          [Event.print "Launching t1...\n",
           Event.run "qemu-img" ["create", "-f", "qcow2",
             "/home/u/.slackpass/instances/t1/disk.qcow2", "20G"]]⟩ ∧
    Manager.Launch sampleConfig sampleEnv sampleLaunch
        (Manager.Launch sampleConfig sampleNoDiskEnv sampleLaunch emptyWorld).2
      = (some (Err.msg ("instance \x27" ++ launchName sampleLaunch ++ "\x27 already exists")),
         (Manager.Launch sampleConfig sampleNoDiskEnv sampleLaunch emptyWorld).2) ∧
    Manager.Delete sampleConfig sampleEnv (launchName sampleLaunch) true true
        (Manager.Launch sampleConfig sampleNoDiskEnv sampleLaunch emptyWorld).2
      = (some (Err.wrap "failed to load metadata"
          (Err.notExist (metadataPath sampleConfig (launchName sampleLaunch)))),
         (Manager.Launch sampleConfig sampleNoDiskEnv sampleLaunch emptyWorld).2) :=
  have h := C22_failed_disk_leaves_name sampleConfig sampleNoDiskEnv sampleEnv sampleEnv
    sampleLaunch sampleLaunch true true emptyWorld rfl rfl rfl
  ⟨rfl, rfl, rfl, h.2.2.2.2.1, h.2.2.2.2.2⟩

end Slackpass
